import Mathlib

/-! # Genesis configuration builder (create-genesis.go)

A shallow embedding of `create-genesis.go` and the statements of its
specification that were checked against it.

Conventions of the embedding:

* a Go `[]byte` and a Go `string` are both lists of bytes (`Bytes`); a nil
  slice and an empty slice are the same list `[]`;
* `*big.Int` values are `Int`, fixed-width unsigned values are `Nat`, and a
  narrowing conversion is written with an explicit `%`;
* a Go `map` is a list of entries with pairwise distinct keys; the order of the
  list is the order in which a `range` loop visits the map in the run at hand;
* the execution engine, Keccak-256, the JSON decoder of artifacts and the ABI
  packing of types and values the model does not interpret are external code
  and enter as fields of `Env`;
* a Go function that can return an error or panic returns a `Res`: the events
  it emitted (simulations started, diagnostics printed, document written) and
  either a value or a `Failure`.
-/

namespace CreateGenesis

deriving instance DecidableEq for Except

/-! ## Bytes, addresses, strings -/

abbrev Byte := Fin 256

abbrev Bytes := List Byte

/-- Go strings are byte strings. -/
abbrev GoString := List Byte

/-- The bytes of an ASCII literal. -/
def str (s : String) : GoString :=
  s.toList.map (fun c => Fin.ofNat c.toNat)

/-- A `common.Address`: an array of exactly 20 bytes. -/
abbrev Address := { b : Bytes // b.length = 20 }

/-- `Address.Bytes()`: the 20 bytes of the address. -/
def Address.Bytes (a : Address) : Bytes := a.val

/-- Big-endian digits of `n` in base 256, exactly `w` of them (high digits
are dropped when `n` does not fit). -/
def beBytes : Nat → Nat → Bytes
  | 0, _ => []
  | w + 1, n => beBytes w (n / 256) ++ [Fin.ofNat (n % 256)]

/-- `common.HexToAddress` on a hex literal denoting `n`: the low 20 bytes. -/
def HexToAddress (n : Nat) : Address := ⟨beBytes 20 n, by simp [beBytes]⟩

/-! ## Association lists: Go maps -/

/-- Go `m[k]` with the comma-ok form: the value stored under `k`, if any. -/
def lookupKey {β : Type} (k : Address) : List (Address × β) → Option β
  | [] => none
  | (k', v) :: rest => if k' = k then some v else lookupKey k rest

/-- Go `m[k] = v`: replaces the value of an existing key, adds a new key
otherwise. -/
def setEntry {β : Type} (k : Address) (v : β) : List (Address × β) → List (Address × β)
  | [] => [(k, v)]
  | (k', v') :: rest => if k' = k then (k, v) :: rest else (k', v') :: setEntry k v rest

/-- A Go `map[common.Address]β` given as input: entries with distinct keys,
listed in the order in which this run ranges over them. -/
structure GoMap (β : Type) where
  entries : List (Address × β)
  nodup : (entries.map Prod.fst).Nodup

def GoMap.get? {β : Type} (m : GoMap β) (k : Address) : Option β := lookupKey k m.entries

/-! ## hexutil and math/big (library code, modelled from its documented behaviour) -/

inductive HexError
  | emptyString | missingMarker | emptyNumber | leadingZero | big256Range | badSyntax | oddLength
  deriving DecidableEq, Repr

/-- Value of one hex digit, either case (`decodeNibble`). -/
def decodeNibble (c : Byte) : Option Nat :=
  if 48 ≤ c.val ∧ c.val ≤ 57 then some (c.val - 48)
  else if 65 ≤ c.val ∧ c.val ≤ 70 then some (c.val - 65 + 10)
  else if 97 ≤ c.val ∧ c.val ≤ 102 then some (c.val - 97 + 10)
  else none

/-- The number a run of hex digits denotes, most significant digit first,
continuing from `acc`; `none` when a byte is not a hex digit. -/
def decodeNibbles : Bytes → Nat → Option Nat
  | [], acc => some acc
  | c :: rest, acc =>
    match decodeNibble c with
    | none => none
    | some d => decodeNibbles rest (acc * 16 + d)

/-- Whether the text starts with `0x` or `0X`. -/
def hasHexMarker (input : GoString) : Bool :=
  match input with
  | a :: b :: _ => decide (a.val = 48) && (decide (b.val = 120) || decide (b.val = 88))
  | _ => false

/-- The check `hexutil` runs on a number before decoding it. -/
def checkNumber (input : GoString) : Except HexError GoString :=
  if input.length = 0 then .error .emptyString
  else if hasHexMarker input = false then .error .missingMarker
  else
    let raw := input.drop 2
    if raw.length = 0 then .error .emptyNumber
    else if 1 < raw.length ∧ raw.head? = some 48 then .error .leadingZero
    else .ok raw

/-- `hexutil.DecodeBig`: a `0x`-marked hex number of at most 256 bits, without
leading zeros. -/
def DecodeBig (input : GoString) : Except HexError Nat :=
  match checkNumber input with
  | .error e => .error e
  | .ok raw =>
    if 64 < raw.length then .error .big256Range
    else
      match decodeNibbles raw 0 with
      | none => .error .badSyntax
      | some n => .ok n

/-- `encoding/hex.DecodeString` with the errors as `hexutil` maps them. -/
def hexDecodePairs : Bytes → Except HexError Bytes
  | [] => .ok []
  | [c] =>
    match decodeNibble c with
    | none => .error .badSyntax
    | some _ => .error .oddLength
  | a :: b :: rest =>
    match decodeNibble a, decodeNibble b with
    | some x, some y =>
      match hexDecodePairs rest with
      | .error e => .error e
      | .ok t => .ok (Fin.ofNat (16 * x + y) :: t)
    | _, _ => .error .badSyntax

/-- `hexutil.Decode`: the bytes of a `0x`-marked hex string. -/
def hexDecode (input : GoString) : Except HexError Bytes :=
  if input.length = 0 then .error .emptyString
  else if hasHexMarker input = false then .error .missingMarker
  else hexDecodePairs (input.drop 2)

/-- `new(big.Int).SetString(s, 16)`: an optional sign, then one or more hex
digits and nothing else; `none` is the `ok = false` result. -/
def SetString16 (s : GoString) : Option Int :=
  let signed : Bool × GoString :=
    match s with
    | [] => (false, [])
    | c :: t => if c.val = 45 then (true, t) else if c.val = 43 then (false, t) else (false, c :: t)
  match signed.2 with
  | [] => none
  | d :: ds =>
    match decodeNibbles (d :: ds) 0 with
    | none => none
    | some n => some (if signed.1 then -(n : Int) else (n : Int))

/-! ## ABI encoding (go-ethereum `accounts/abi`)

The types the program passes, and the fixed-size arrays next to them, are
interpreted here. Every other type name is left to the library as external
code (`Env.PackOther`). -/

/-- Element types that occupy one 32-byte word. -/
inductive AbiElem
  | uint (bits : Nat)
  | address
  deriving DecidableEq, Repr

/-- The ABI types the model interprets: a word type, a dynamic array `T[]` of
a word type, a fixed-size array `T[n]` of a word type, or `bytes`. -/
inductive AbiType
  | elem (e : AbiElem)
  | slice (e : AbiElem)
  | array (size : Nat) (e : AbiElem)
  | bytes
  deriving DecidableEq, Repr

/-- Go values handed to `Pack` as `interface{}`. -/
inductive GoValue
  | uint (bits : Nat) (n : Nat)
  | bigInt (v : Option Int)
  | address (a : Address)
  | bytes (b : Bytes)
  | uintSlice (bits : Nat) (l : List Nat)
  | bigIntSlice (l : List Int)
  | addressSlice (l : List Address)
  /-- A Go array `[n]uintN`, by its elements. -/
  | uintArray (bits : Nat) (l : List Nat)
  /-- A Go array `[n]*big.Int`, by its elements. -/
  | bigIntArray (l : List Int)
  /-- A Go array `[n]common.Address`, by its elements. -/
  | addressArray (l : List Address)
  /-- A Go value of any other type; the model does not look into it. -/
  | other (tag : Nat)
  deriving DecidableEq

inductive AbiError
  | unsupportedType (name : GoString)
  | argumentCount (want got : Nat)
  | typeCheck (index : Nat)
  | nilPointer
  deriving DecidableEq

/-- Whether Go represents `uint<bits>` by a machine integer (otherwise by
`*big.Int`). -/
def machineUint (bits : Nat) : Bool :=
  bits = 8 || bits = 16 || bits = 32 || bits = 64

/-- A 32-byte big-endian word (`packNum` on a non-negative number). -/
def word (n : Nat) : Bytes := beBytes 32 n

/-- `math.U256Bytes`: the two-complement 256-bit word of a big integer. -/
def U256Bytes (v : Int) : Bytes := word (v % (2 ^ 256 : Int)).toNat

/-- `common.LeftPadBytes(a.Bytes(), 32)`. -/
def packAddress (a : Address) : Bytes := List.replicate 12 0 ++ a.Bytes

/-- `packBytesSlice`: length word, then the data padded with zeros on the
right to a multiple of 32 bytes. -/
def packBytesSlice (b : Bytes) : Bytes :=
  word b.length ++ b ++ List.replicate ((b.length + 31) / 32 * 32 - b.length) 0

/-- Whether the model interprets a value for a type: the value has the Go type
go-ethereum maps the ABI type to, that is, a machine integer or a `*big.Int`
for `uint<N>`, a `common.Address` for `address`, a `[]byte` for `bytes`, a
slice of these for `T[]` and an array of these for `T[n]`. What the library
does with any other value, which its checks by reflection may accept, is
left to the library. -/
def interpretsValue : AbiType → GoValue → Bool
  | .elem (.uint bits), .uint bits' _ => machineUint bits && decide (bits' = bits)
  | .elem (.uint bits), .bigInt _ => !machineUint bits
  | .elem .address, .address _ => true
  | .slice (.uint bits), .uintSlice bits' _ => machineUint bits && decide (bits' = bits)
  | .slice (.uint bits), .bigIntSlice _ => !machineUint bits
  | .slice .address, .addressSlice _ => true
  | .array _ (.uint bits), .uintArray bits' _ => machineUint bits && decide (bits' = bits)
  | .array _ (.uint bits), .bigIntArray _ => !machineUint bits
  | .array _ .address, .addressArray _ => true
  | .bytes, .bytes _ => true
  | _, _ => false

/-- Whether the model interprets all the values of a call of `Pack`, one value
for each type. -/
def interpretsAll : List AbiType → List GoValue → Bool
  | [], [] => true
  | t :: ts, a :: as => interpretsValue t a && interpretsAll ts as
  | _, _ => false

/-- Whether the model interprets a call of `Pack`: the number of values is not
the number of types, which `Pack` reports before it looks at a value, or the
model interprets every value for its type. -/
def interpretsValues (arguments : List AbiType) (args : List GoValue) : Bool :=
  decide (args.length ≠ arguments.length) || interpretsAll arguments args

/-- `Type.pack`: type check of the Go value against the ABI type, then its
encoding. `index` only labels the error. -/
def AbiType.pack (index : Nat) : AbiType → GoValue → Except AbiError Bytes
  | .elem (.uint bits), .uint bits' n =>
    if machineUint bits = true ∧ bits' = bits then .ok (word n) else .error (.typeCheck index)
  | .elem (.uint bits), .bigInt v =>
    if machineUint bits = true then .error (.typeCheck index)
    else
      match v with
      | none => .error .nilPointer
      | some x => .ok (U256Bytes x)
  | .elem .address, .address a => .ok (packAddress a)
  | .slice (.uint bits), .uintSlice bits' l =>
    if machineUint bits = true ∧ bits' = bits then
      .ok (word l.length ++ (l.map word).flatten)
    else .error (.typeCheck index)
  | .slice (.uint bits), .bigIntSlice l =>
    if machineUint bits = true then .error (.typeCheck index)
    else .ok (word l.length ++ (l.map U256Bytes).flatten)
  | .slice .address, .addressSlice l => .ok (word l.length ++ (l.map packAddress).flatten)
  | .array size (.uint bits), .uintArray bits' l =>
    if machineUint bits = true ∧ bits' = bits ∧ l.length = size then
      .ok ((l.map word).flatten)
    else .error (.typeCheck index)
  | .array size (.uint bits), .bigIntArray l =>
    if machineUint bits = true then .error (.typeCheck index)
    else if l.length = size then .ok ((l.map U256Bytes).flatten)
    else .error (.typeCheck index)
  | .array size .address, .addressArray l =>
    if l.length = size then .ok ((l.map packAddress).flatten) else .error (.typeCheck index)
  | .bytes, .bytes b => .ok (packBytesSlice b)
  | _, _ => .error (.typeCheck index)

def isDynamicType : AbiType → Bool
  | .elem _ => false
  | .array _ _ => false
  | _ => true

/-- Size of the head slot of a type: a fixed-size array of word types lies in
the head with all its elements, every other type takes one word. -/
def getTypeSize : AbiType → Nat
  | .array size _ => size * 32
  | _ => 32

/-- The loop of `Arguments.Pack` over the values, from argument `index` on. -/
def packLoop : Nat → List AbiType → List GoValue → Nat → Bytes → Bytes → Except AbiError Bytes
  | index, t :: ts, a :: as, inputOffset, ret, variableInput =>
    match t.pack index a with
    | .error e => .error e
    | .ok packed =>
      if isDynamicType t = true then
        packLoop (index + 1) ts as (inputOffset + packed.length) (ret ++ word inputOffset)
          (variableInput ++ packed)
      else packLoop (index + 1) ts as inputOffset (ret ++ packed) variableInput
  | _, _, _, _, ret, variableInput => .ok (ret ++ variableInput)

/-- `Arguments.Pack`. -/
def Pack (arguments : List AbiType) (args : List GoValue) : Except AbiError Bytes :=
  if args.length ≠ arguments.length then .error (.argumentCount arguments.length args.length)
  else packLoop 0 arguments args ((arguments.map getTypeSize).sum) [] []

/-- Names of the word types the model interprets: the ones the program passes
and the other machine-sized unsigned integers. -/
def elemTypeNames : List (GoString × AbiElem) :=
  [(str "address", .address), (str "uint8", .uint 8), (str "uint16", .uint 16),
   (str "uint32", .uint 32), (str "uint64", .uint 64), (str "uint256", .uint 256)]

def lookupName : GoString → List (GoString × AbiElem) → Option AbiElem
  | _, [] => none
  | name, (n, e) :: rest => if n = name then some e else lookupName name rest

/-- The number a run of decimal digits denotes, continuing from `acc`; `none`
when a byte is not a decimal digit. -/
def decodeDecimal : Bytes → Nat → Option Nat
  | [], acc => some acc
  | c :: rest, acc =>
    if 48 ≤ c.val ∧ c.val ≤ 57 then decodeDecimal rest (acc * 10 + (c.val - 48)) else none

/-- `abi.NewType(tn, tn, nil)` on the type names the model interprets: `bytes`,
a word type, and a word type followed by `[]` or by `[n]` with a decimal `n`.
`none` stands for a name the model does not interpret; it says nothing about
whether `abi.NewType` accepts the name. -/
def NewType (tn : GoString) : Option AbiType :=
  if tn = str "bytes" then some .bytes
  else
    match lookupName tn elemTypeNames with
    | some e => some (.elem e)
    | none =>
      match tn.reverse with
      | c :: rest =>
        if c.val = 93 then
          match rest.dropWhile (fun b => decide (b.val ≠ 91)) with
          | _ :: name =>
            match lookupName name.reverse elemTypeNames with
            | none => none
            | some e =>
              match (rest.takeWhile (fun b => decide (b.val ≠ 91))).reverse with
              | [] => some (.slice e)
              | d :: ds =>
                match decodeDecimal (d :: ds) 0 with
                | some size => some (.array size e)
                | none => none
          | [] => none
        else none
      | [] => none

/-- `newArguments` (lines 178-188) on lists of type names the model
interprets; `none` when some name is not interpreted. -/
def newArguments : List GoString → Option (List AbiType)
  | [] => some []
  | tn :: rest =>
    match NewType tn with
    | none => none
    | some t =>
      match newArguments rest with
      | none => none
      | some ts => some (t :: ts)

/-! ## createExtraData (lines 53-59) -/

/-- Go `copy(dst, src)`: overwrites the first `min (len dst) (len src)` bytes
of `dst` with those of `src`, and leaves the rest of `dst` alone. -/
def copy (dst src : Bytes) : Bytes :=
  src.take dst.length ++ dst.drop src.length

/-- `copy(extra[off:], src)` seen from `extra`: the bytes before `off` are not
part of the destination slice. The program only calls it with
`off ≤ len extra` (see `createExtraData_offset_le`). -/
def copyAt (extra : Bytes) (off : Nat) (src : Bytes) : Bytes :=
  extra.take off ++ copy (extra.drop off) src

/-- The `for i, v := range validators` loop, from index `i` on. -/
def createExtraDataLoop : List Address → Nat → Bytes → Bytes
  | [], _, extra => extra
  | v :: rest, i, extra => createExtraDataLoop rest (i + 1) (copyAt extra (32 + 20 * i) v.Bytes)

def createExtraData (validators : List Address) : Bytes :=
  createExtraDataLoop validators 0 (List.replicate (32 + 20 * validators.length + 65) 0)


/-! ## The genesis document -/

/-- A `state.Storage`: slot writes, key and value 32-byte words as numbers. -/
abbrev Storage := List (Nat × Nat)

/-- A `core.GenesisAccount`; its zero value has no code, no storage, a nil
balance and nonce 0. -/
structure GenesisAccount where
  Code : Bytes := []
  Storage : Storage := []
  Balance : Option Int := none
  Nonce : Nat := 0
  deriving DecidableEq

/-- A `core.GenesisAlloc`, `map[common.Address]GenesisAccount`. -/
structure GenesisAlloc where
  entries : List (Address × GenesisAccount)
  deriving DecidableEq

def GenesisAlloc.get? (alloc : GenesisAlloc) (k : Address) : Option GenesisAccount :=
  lookupKey k alloc.entries

/-- Go `alloc[k]`: the zero value when the key is absent. -/
def GenesisAlloc.get (alloc : GenesisAlloc) (k : Address) : GenesisAccount :=
  (alloc.get? k).getD {}

def GenesisAlloc.set (alloc : GenesisAlloc) (k : Address) (v : GenesisAccount) : GenesisAlloc :=
  ⟨setEntry k v alloc.entries⟩

def GenesisAlloc.keys (alloc : GenesisAlloc) : List Address := alloc.entries.map Prod.fst

/-- The fields of `params.ChainConfig` that depend on the profile; the
Ethereum and BSC fork blocks, which `defaultGenesisConfig` sets to the
constant 0, are left out. -/
structure ChainConfig where
  ChainID : Int
  RuntimeUpgradeBlock : Option Int
  DeployOriginBlock : Option Int
  DeploymentHookFixBlock : Option Int
  ParliaPeriod : Nat
  ParliaEpoch : Nat
  deriving DecidableEq

/-- A `core.Genesis`. -/
structure Genesis where
  Config : ChainConfig
  Nonce : Nat
  Timestamp : Nat
  ExtraData : Bytes
  GasLimit : Nat
  Difficulty : Int
  Mixhash : Nat
  Coinbase : Address
  Alloc : GenesisAlloc
  Number : Nat
  GasUsed : Nat
  ParentHash : Nat
  deriving DecidableEq

/-! ## Profiles (lines 190-218) -/

structure consensusParams where
  ActiveValidatorsLength : Nat
  EpochBlockInterval : Nat
  MisdemeanorThreshold : Nat
  FelonyThreshold : Nat
  ValidatorJailEpochLength : Nat
  UndelegatePeriod : Nat
  MinValidatorStakeAmount : Option Int
  MinStakingAmount : Option Int

structure RTFForks where
  RuntimeUpgradeBlock : Option Int := none
  DeployOriginBlock : Option Int := none
  DeploymentHookFixBlock : Option Int := none

structure genesisConfig where
  ChainId : Int
  Deployers : List Address
  Validators : List Address
  SystemTreasury : GoMap Nat
  ConsensusParams : consensusParams
  VotingPeriod : Int
  Faucet : GoMap GoString
  CommissionRate : Int
  InitialStakes : GoMap GoString
  Forks : RTFForks

/-! ## Outcomes and events -/

inductive ErrorValue
  /-- The error of line 250; its text ends with the validator in hex. -/
  | initialStakeNotFound (validator : Address)
  /-- The error of line 307; its text quotes the faucet value. -/
  | failedToParseNumber (value : GoString)
  | hexutil (e : HexError)
  | abi (e : AbiError)
  | json (msg : GoString)
  | engine (msg : GoString)
  | writeFailed (msg : GoString)
  /-- Go run-time error: slice bounds out of range `[low:len]`. -/
  | sliceBounds (low len : Nat)
  deriving DecidableEq

/-- How a Go function fails: it returns an `error`, or it panics. -/
inductive Failure
  | error (e : ErrorValue)
  | panic (e : ErrorValue)
  deriving DecidableEq

/-- Where the document goes (lines 315-322). -/
inductive Sink
  | stdout
  | stderr
  | file (name : GoString)
  deriving DecidableEq

/-- What a run does that can be observed from outside. -/
inductive Event
  /-- The `Printf` of line 232. -/
  | constructorCall (contract : Address) (sig ctor : Bytes)
  /-- Entry into `simulateSystemContract` for the contract. -/
  | simulation (contract : Address)
  /-- A `print` or `println` of the diagnostics. -/
  | print (text : Bytes)
  /-- The serialised document handed to the sink. -/
  | write (sink : Sink) (document : Genesis)
  deriving DecidableEq

/-- Result of a Go function: the events it emitted, in order, and its value or
failure. -/
structure Res (α : Type) where
  events : List Event
  value : Except Failure α

def Res.pure {α : Type} (a : α) : Res α := ⟨[], .ok a⟩

def Res.bind {α β : Type} (x : Res α) (f : α → Res β) : Res β :=
  match x.value with
  | .error e => ⟨x.events, .error e⟩
  | .ok a => ⟨x.events ++ (f a).events, (f a).value⟩

instance : Monad Res where
  pure := Res.pure
  bind := Res.bind

def Res.fail {α : Type} (e : Failure) : Res α := ⟨[], .error e⟩

def Res.emit (e : Event) : Res Unit := ⟨[e], .ok ()⟩

/-- `if err != nil { panic(err) }` around a call. -/
def Res.orPanic {α : Type} (x : Res α) : Res α :=
  match x.value with
  | .error (.error e) => ⟨x.events, .error (.panic e)⟩
  | _ => x

/-! ## The execution engine and the other external code -/

structure artifactData where
  Bytecode : GoString
  DeployedBytecode : GoString

/-- What `core.NewEVMBlockContext(genesis.ToBlock().Header(), ..,
&common.Address{})` hands to the engine: header fields of the genesis block,
with the zero address as beneficiary. -/
structure BlockContext where
  Coinbase : Address
  GasLimit : Nat
  BlockNumber : Nat
  Time : Nat
  Difficulty : Int
  deriving DecidableEq

/-- `core.NewEVMTxContext(msg)`. -/
structure TxContext where
  Origin : Address
  GasPrice : Int
  deriving DecidableEq

/-- What an engine operation returns: the returned bytes, the state database
after it, and the error if it failed. -/
structure CallResult (σ : Type) where
  ret : Bytes
  statedb : σ
  err : Option GoString

/-- The state object of an account, as far as the program reads it. -/
structure StateObject where
  dirtyStorage : Storage

/-- External code: the execution engine (go-ethereum `state` and `vm`),
Keccak-256, the JSON decoder, the embedded artifacts and the output sinks. -/
structure Env where
  StateDB : Type
  /-- `state.New` over a new in-memory database. -/
  newState : Except GoString StateDB
  SetBalance : StateDB → Address → Option Int → StateDB
  GetOrNewStateObject : StateDB → Address → StateObject × StateDB
  /-- `evm.CreateWithAddress(caller, code, gas, value, address)`. -/
  CreateWithAddress : BlockContext → TxContext → ChainConfig → StateDB →
    Address → Bytes → Nat → Int → Address → CallResult StateDB
  /-- `evm.Call(caller, address, input, gas, value)`. -/
  Call : BlockContext → TxContext → ChainConfig → StateDB →
    Address → Address → Bytes → Nat → Int → CallResult StateDB
  Keccak256 : Bytes → { h : Bytes // h.length = 32 }
  /-- `newArguments(typeNames...).Pack(params...)` of the library on a type
  name or a value the model does not interpret: the packed arguments, or the
  error of `abi.NewType` or of `Pack`. -/
  PackOther : List GoString → List GoValue → Except AbiError Bytes
  /-- `json.Unmarshal(rawArtifact, artifact)`. -/
  unmarshalArtifact : Bytes → Except GoString artifactData
  EvmHookRuntimeUpgradeAddress : Address
  stakingRawArtifact : Bytes
  stakingPoolRawArtifact : Bytes
  chainConfigRawArtifact : Bytes
  slashingIndicatorRawArtifact : Bytes
  systemRewardRawArtifact : Bytes
  governanceRawArtifact : Bytes
  runtimeUpgradeRawArtifact : Bytes
  deployerProxyRawArtifact : Bytes
  /-- The error of writing the document to the sink, if it fails. -/
  writeError : Sink → Option GoString

def zeroAddress : Address := HexToAddress 0

/-- `hexutil.MustDecode`. -/
def MustDecode (input : GoString) : Res Bytes :=
  match hexDecode input with
  | .error e => Res.fail (.panic (.hexutil e))
  | .ok b => Res.pure b

/-- The block context of the simulations (lines 88-89). -/
def newEVMBlockContext (genesis : Genesis) : BlockContext :=
  { Coinbase := zeroAddress, GasLimit := genesis.GasLimit, BlockNumber := genesis.Number,
    Time := genesis.Timestamp, Difficulty := genesis.Difficulty }

/-! ## simulateSystemContract (lines 74-142) -/

/-- The diagnostics of lines 110-115 and 133-138: the bytes after the first
64 that are printable ASCII, one `print` each, then `println`. The slice
expression `ret[64:]` panics when `ret` has fewer than 64 bytes. -/
def printRevertReason (ret : Bytes) : Res Unit :=
  if ret.length < 64 then Res.fail (.panic (.sliceBounds 64 ret.length))
  else
    ⟨((ret.drop 64).filter (fun c => decide (32 ≤ c.val ∧ c.val ≤ 127))).map
        (fun c => Event.print [c]) ++ [Event.print [10]], .ok ()⟩

/-- Lines 87-108: the funding balance is set on the target in the given state
database, and the creation is run at the forced address. -/
def runCreation (env : Env) (genesis : Genesis) (systemContract : Address) (bytecode : Bytes)
    (balance : Option Int) (statedb : env.StateDB) : CallResult env.StateDB :=
  let statedb := env.SetBalance statedb systemContract balance
  let blockContext := newEVMBlockContext genesis
  let txContext : TxContext := { Origin := systemContract, GasPrice := 0 }
  env.CreateWithAddress blockContext txContext genesis.Config statedb
    zeroAddress bytecode 10000000 0 systemContract

/-- Line 131: the zero-value call of the initializer, on the state database
the creation left, by the engine instance built at line 107, that is, with
the block context and chain configuration of the creation. -/
def runInitializer (env : Env) (genesis : Genesis) (systemContract : Address) (input : Bytes)
    (statedb : env.StateDB) : CallResult env.StateDB :=
  let blockContext := newEVMBlockContext genesis
  let txContext : TxContext := { Origin := systemContract, GasPrice := 0 }
  env.Call blockContext txContext genesis.Config statedb
    zeroAddress systemContract input 10000000 0

/-- Selector of the initializer, the literal of line 131. -/
def initializerSelector : GoString := str "0xe1c7392a"

def simulateSystemContract (env : Env) (genesis : Genesis) (systemContract : Address)
    (rawArtifact : Bytes) (ctor : Bytes) (balance : Option Int) : Res Genesis := do
  Res.emit (.simulation systemContract)
  match env.unmarshalArtifact rawArtifact with
  | .error e => Res.fail (.error (.json e))
  | .ok artifact =>
    let code ← MustDecode artifact.Bytecode
    let bytecode := code ++ ctor
    -- simulate constructor execution
    match env.newState with
    | .error e => Res.fail (.error (.engine e))
    | .ok statedb =>
      let created := runCreation env genesis systemContract bytecode balance statedb
      match created.err with
      | some e =>
        printRevertReason created.ret
        Res.fail (.error (.engine e))
      | none =>
        let deployedBytecode := created.ret
        let object := env.GetOrNewStateObject created.statedb systemContract
        let storage := object.1.dirtyStorage
        -- read state changes from state database
        let genesisAccount : GenesisAccount :=
          { Code := deployedBytecode, Storage := storage, Balance := some 0, Nonce := 0 }
        let updated := { genesis with Alloc := genesis.Alloc.set systemContract genesisAccount }
        -- make sure ctor working fine (better to fail here instead of in consensus engine)
        let input ← MustDecode initializerSelector
        let called := runInitializer env genesis systemContract input object.2
        match called.err with
        | some e =>
          printRevertReason called.ret
          Res.fail (.error (.engine e))
        | none => pure updated

/-! ## Constructor payload and invokeConstructorOrPanic (lines 220-237) -/

/-- The text `ctor(type1,type2,...)` of line 225. -/
def ctorSignature (typeNames : List GoString) : GoString :=
  str "ctor(" ++ List.intercalate (str ",") typeNames ++ str ")"

/-- The selector of line 225: `crypto.Keccak256(..)[:4]`. -/
def ctorSelector (env : Env) (typeNames : List GoString) : Bytes :=
  (env.Keccak256 (ctorSignature typeNames)).val.take 4

/-- The arguments packed by `newArguments(typeNames...).Pack(params...)` (line
221 and line 227), or the error the function panics with: the model of the
library on the type names and values it interprets, the library itself on
the others. -/
def packConstructorArguments (env : Env) (typeNames : List GoString)
    (params : List GoValue) : Except AbiError Bytes :=
  match newArguments typeNames with
  | some arguments =>
    if interpretsValues arguments params = true then Pack arguments params
    else env.PackOther typeNames params
  | none => env.PackOther typeNames params

/-- The buffer of line 226: selector, then the packed arguments. -/
def innerPayload (env : Env) (typeNames : List GoString) (params : List GoValue) :
    Except AbiError Bytes :=
  match packConstructorArguments env typeNames params with
  | .error e => .error e
  | .ok ctor => .ok (ctorSelector env typeNames ++ ctor)

/-- Lines 221-230: the payload appended to the creation bytecode. -/
def constructorPayload (env : Env) (typeNames : List GoString) (params : List GoValue) :
    Except AbiError Bytes :=
  match innerPayload env typeNames params with
  | .error e => .error e
  | .ok ctor => packConstructorArguments env [str "bytes"] [GoValue.bytes ctor]

def invokeConstructorOrPanic (env : Env) (genesis : Genesis) (contract : Address)
    (rawArtifact : Bytes) (typeNames : List GoString) (params : List GoValue) (silent : Bool)
    (balance : Option Int) : Res Genesis :=
  match constructorPayload env typeNames params with
  | .error e => Res.fail (.panic (.abi e))
  | .ok ctor => do
    if silent = false then
      Res.emit (.constructorCall contract (ctorSelector env typeNames) ctor)
    Res.orPanic (simulateSystemContract env genesis contract rawArtifact ctor balance)

/-! ## createGenesisConfig (lines 144-152, 239-385) -/

def stakingAddress : Address := HexToAddress 0x0000000000000000000000000000000000001000
def slashingIndicatorAddress : Address := HexToAddress 0x0000000000000000000000000000000000001001
def systemRewardAddress : Address := HexToAddress 0x0000000000000000000000000000000000001002
def stakingPoolAddress : Address := HexToAddress 0x0000000000000000000000000000000000007001
def governanceAddress : Address := HexToAddress 0x0000000000000000000000000000000000007002
def chainConfigAddress : Address := HexToAddress 0x0000000000000000000000000000000000007003
def runtimeUpgradeAddress : Address := HexToAddress 0x0000000000000000000000000000000000007004
def deployerProxyAddress : Address := HexToAddress 0x0000000000000000000000000000000000007005
def intermediarySystemAddress : Address := HexToAddress 0xfffffffffffffffffffffffffffffffffffffffe

def decimalToBigInt (value : Option Int) : Option Int :=
  match value with
  | none => none
  | some v => some v

def defaultGenesisConfig (config : genesisConfig) : Genesis :=
  { Config :=
      { ChainID := config.ChainId
        RuntimeUpgradeBlock := decimalToBigInt config.Forks.RuntimeUpgradeBlock
        DeployOriginBlock := decimalToBigInt config.Forks.DeployOriginBlock
        DeploymentHookFixBlock := decimalToBigInt config.Forks.DeploymentHookFixBlock
        ParliaPeriod := 3
        ParliaEpoch := 0 }
    Nonce := 0
    Timestamp := 0x65CF9B5C
    ExtraData := []
    GasLimit := 0x2625a00
    Difficulty := 1
    Mixhash := 0
    Coinbase := zeroAddress
    Alloc := ⟨[]⟩
    Number := 0
    GasUsed := 0
    ParentHash := 0 }

/-- The loop of lines 247-258 from some validator on: the stakes decoded so
far and their running total. -/
def collectInitialStakes (stakes : GoMap GoString) :
    List Address → List Int → Int → Except ErrorValue (List Int × Int)
  | [], initialStakes, initialStakeTotal => .ok (initialStakes, initialStakeTotal)
  | v :: rest, initialStakes, initialStakeTotal =>
    match stakes.get? v with
    | none => .error (.initialStakeNotFound v)
    | some rawInitialStake =>
      match DecodeBig rawInitialStake with
      | .error e => .error (.hexutil e)
      | .ok initialStake =>
        collectInitialStakes stakes rest (initialStakes ++ [(initialStake : Int)])
          (initialStakeTotal + (initialStake : Int))

/-- The faucet loop of lines 304-312 over the entries in the order this run
visits them. `value[2:]` panics on a value of fewer than 2 bytes. -/
def applyFaucet : List (Address × GoString) → GenesisAlloc → Except Failure GenesisAlloc
  | [], alloc => .ok alloc
  | (key, value) :: rest, alloc =>
    if value.length < 2 then .error (.panic (.sliceBounds 2 value.length))
    else
      match SetString16 (value.drop 2) with
      | none => .error (.error (.failedToParseNumber value))
      | some balance => applyFaucet rest (alloc.set key { Balance := some balance })

/-- The sink chosen at lines 315-322. -/
def sinkOf (targetFile : GoString) : Sink :=
  if targetFile = str "stdout" then .stdout
  else if targetFile = str "stderr" then .stderr
  else .file targetFile

/-- Lines 240-312 of `createGenesisConfig`: everything up to the document
that is then serialised. -/
def assembleGenesis (env : Env) (config : genesisConfig) (targetFile : GoString) :
    Res Genesis := do
  let genesis := defaultGenesisConfig config
  -- extra data
  let genesis := { genesis with ExtraData := createExtraData config.Validators }
  let genesis := { genesis with
    Config := { genesis.Config with ParliaEpoch := config.ConsensusParams.EpochBlockInterval } }
  -- execute system contracts
  match collectInitialStakes config.InitialStakes config.Validators [] 0 with
  | .error e => Res.fail (.error e)
  | .ok (initialStakes, initialStakeTotal) =>
    let silent : Bool := decide (targetFile = str "stdout")
    let genesis ← invokeConstructorOrPanic env genesis stakingAddress env.stakingRawArtifact
      [str "address[]", str "uint256[]", str "uint16"]
      [.addressSlice config.Validators, .bigIntSlice initialStakes,
        .uint 16 (config.CommissionRate % 65536).toNat]
      silent (some initialStakeTotal)
    let genesis ← invokeConstructorOrPanic env genesis chainConfigAddress
      env.chainConfigRawArtifact
      [str "uint32", str "uint32", str "uint32", str "uint32", str "uint32", str "uint32",
        str "uint256", str "uint256"]
      [.uint 32 config.ConsensusParams.ActiveValidatorsLength,
        .uint 32 config.ConsensusParams.EpochBlockInterval,
        .uint 32 config.ConsensusParams.MisdemeanorThreshold,
        .uint 32 config.ConsensusParams.FelonyThreshold,
        .uint 32 config.ConsensusParams.ValidatorJailEpochLength,
        .uint 32 config.ConsensusParams.UndelegatePeriod,
        .bigInt config.ConsensusParams.MinValidatorStakeAmount,
        .bigInt config.ConsensusParams.MinStakingAmount]
      silent none
    let genesis ← invokeConstructorOrPanic env genesis slashingIndicatorAddress
      env.slashingIndicatorRawArtifact [] [] silent none
    let genesis ← invokeConstructorOrPanic env genesis stakingPoolAddress
      env.stakingPoolRawArtifact [] [] silent none
    let treasuryAddresses := config.SystemTreasury.entries.map Prod.fst
    let treasuryShares := config.SystemTreasury.entries.map Prod.snd
    let genesis ← invokeConstructorOrPanic env genesis systemRewardAddress
      env.systemRewardRawArtifact [str "address[]", str "uint16[]"]
      [.addressSlice treasuryAddresses, .uintSlice 16 treasuryShares] silent none
    let genesis ← invokeConstructorOrPanic env genesis governanceAddress
      env.governanceRawArtifact [str "uint256"] [.bigInt (some config.VotingPeriod)] silent none
    let genesis ← invokeConstructorOrPanic env genesis runtimeUpgradeAddress
      env.runtimeUpgradeRawArtifact [str "address"] [.address env.EvmHookRuntimeUpgradeAddress]
      silent none
    let genesis ← invokeConstructorOrPanic env genesis deployerProxyAddress
      env.deployerProxyRawArtifact [str "address[]"] [.addressSlice config.Deployers] silent none
    -- create system contract
    let alloc := genesis.Alloc.set intermediarySystemAddress { Balance := some 0 }
    -- set staking allocation
    let stakingAlloc := alloc.get stakingAddress
    let stakingAlloc := { stakingAlloc with Balance := some initialStakeTotal }
    let alloc := alloc.set stakingAddress stakingAlloc
    -- apply faucet
    match applyFaucet config.Faucet.entries alloc with
    | .error e => Res.fail e
    | .ok alloc => pure { genesis with Alloc := alloc }

/-- `createGenesisConfig`: the document is assembled, then handed to the sink
(lines 314-322); the error of the write, if any, is the result. -/
def createGenesisConfig (env : Env) (config : genesisConfig) (targetFile : GoString) :
    Res Unit := do
  let genesis ← assembleGenesis env config targetFile
  Res.emit (.write (sinkOf targetFile) genesis)
  match env.writeError (sinkOf targetFile) with
  | some e => Res.fail (.error (.writeFailed e))
  | none => pure ()

/-! ## A concrete environment and concrete profiles, to run the model -/

/-- A small stand-in engine: the state is the dirty storage of the one
contract; creation writes slot 0 and returns the first two bytes of the code,
the call of the initializer writes slot 1. The hash is a placeholder. -/
def sampleEnv : Env :=
  { StateDB := Storage
    newState := .ok []
    SetBalance := fun s _ _ => s
    GetOrNewStateObject := fun s _ => (⟨s⟩, s)
    CreateWithAddress := fun _ _ _ s _ code _ _ _ => ⟨code.take 2, s ++ [(0, 1)], none⟩
    Call := fun _ _ _ s _ _ _ _ _ => ⟨[], s ++ [(1, 2)], none⟩
    Keccak256 := fun _ => ⟨List.replicate 32 7, List.length_replicate 32 7⟩
    PackOther := fun typeNames _ => .error (.unsupportedType (typeNames.headD []))
    unmarshalArtifact := fun raw => .ok ⟨raw, []⟩
    EvmHookRuntimeUpgradeAddress := HexToAddress 0x7777
    stakingRawArtifact := str "0x6001"
    stakingPoolRawArtifact := str "0x6002"
    chainConfigRawArtifact := str "0x6003"
    slashingIndicatorRawArtifact := str "0x6004"
    systemRewardRawArtifact := str "0x6005"
    governanceRawArtifact := str "0x6006"
    runtimeUpgradeRawArtifact := str "0x6007"
    deployerProxyRawArtifact := str "0x6008"
    writeError := fun _ => none }

def validatorA : Address := HexToAddress 0x00a601f45688dba8a070722073b015277cf36725

/-- The built-in local profile (lines 387-421). -/
def localNetConfig : genesisConfig :=
  { ChainId := 1337
    Deployers := [validatorA]
    Validators := [validatorA]
    SystemTreasury := ⟨[(validatorA, 10000)], by decide⟩
    ConsensusParams :=
      { ActiveValidatorsLength := 25, EpochBlockInterval := 40, MisdemeanorThreshold := 5,
        FelonyThreshold := 10, ValidatorJailEpochLength := 3, UndelegatePeriod := 2,
        MinValidatorStakeAmount := some 0xde0b6b3a7640000,
        MinStakingAmount := some 0x1bc16d674ec800002 }
    InitialStakes := ⟨[(validatorA, str "0x3635c9adc5dea00000")], by decide⟩
    VotingPeriod := 20
    Faucet :=
      ⟨[(validatorA, str "0x21e19e0c9bab2400000"),
        (HexToAddress 0x57BA24bE2cF17400f37dB3566e839bfA6A2d018a, str "0x21e19e0c9bab2400000"),
        (HexToAddress 0xEbCf9D06cf9333706E61213F17A795B2F7c55F1b, str "0x21e19e0c9bab2400000")],
        by decide⟩
    CommissionRate := 0
    Forks := {} }

/-- The built-in devnet profile (lines 423-463). -/
def devNetConfig : genesisConfig :=
  { ChainId := 17243
    Deployers := []
    Validators :=
      [HexToAddress 0x08fae3885e299c24ff9841478eb946f41023ac69,
       HexToAddress 0x751aaca849b09a3e347bbfe125cf18423cc24b40,
       HexToAddress 0xa6ff33e3250cc765052ac9d7f7dfebda183c4b9b,
       HexToAddress 0x49c0f7c8c11a4c80dc6449efe1010bb166818da8,
       HexToAddress 0x8e1ea6eaa09c3b40f4a51fcd056a031870a0549a]
    SystemTreasury := ⟨[(HexToAddress 0x0000000000000000000000000000000000000000, 10000)], by decide⟩
    ConsensusParams :=
      { ActiveValidatorsLength := 25, EpochBlockInterval := 1200, MisdemeanorThreshold := 50,
        FelonyThreshold := 150, ValidatorJailEpochLength := 7, UndelegatePeriod := 6,
        MinValidatorStakeAmount := some 0xde0b6b3a7640000,
        MinStakingAmount := some 0xde0b6b3a7640000 }
    InitialStakes :=
      ⟨[(HexToAddress 0x08fae3885e299c24ff9841478eb946f41023ac69, str "0x3635c9adc5dea00000"),
        (HexToAddress 0x751aaca849b09a3e347bbfe125cf18423cc24b40, str "0x3635c9adc5dea00000"),
        (HexToAddress 0xa6ff33e3250cc765052ac9d7f7dfebda183c4b9b, str "0x3635c9adc5dea00000"),
        (HexToAddress 0x49c0f7c8c11a4c80dc6449efe1010bb166818da8, str "0x3635c9adc5dea00000"),
        (HexToAddress 0x8e1ea6eaa09c3b40f4a51fcd056a031870a0549a, str "0x3635c9adc5dea00000")],
        by decide⟩
    VotingPeriod := 60
    Faucet :=
      ⟨[(HexToAddress 0x00a601f45688dba8a070722073b015277cf36725, str "0x21e19e0c9bab2400000"),
        (HexToAddress 0xb891fe7b38f857f53a7b5529204c58d5c487280b,
          str "0x52b7d2dcc80cd2e4000000")],
        by decide⟩
    CommissionRate := 0
    Forks := {} }

def validatorB : Address := HexToAddress 0x57BA24bE2cF17400f37dB3566e839bfA6A2d018a

/-- The local profile with a single faucet entry, at the Staking address. -/
def faucetAtStaking : genesisConfig :=
  { localNetConfig with Faucet := ⟨[(stakingAddress, str "0x01")], by decide⟩ }

/-- The local profile with a single faucet entry, at the reserved
intermediary address. -/
def faucetAtIntermediary : genesisConfig :=
  { localNetConfig with Faucet := ⟨[(intermediarySystemAddress, str "0x01")], by decide⟩ }

/-- The local profile with two validators: the first has a stake that is not
a hex number, the second has no stake entry. -/
def malformedThenMissing : genesisConfig :=
  { localNetConfig with
    Validators := [validatorA, validatorB]
    InitialStakes := ⟨[(validatorA, str "zz")], by decide⟩ }

/-- The local profile with a second validator that has no stake entry. -/
def secondValidatorMissing : genesisConfig :=
  { localNetConfig with Validators := [validatorA, validatorB] }

/-- A stand-in engine whose creation returns the whole creation input, the
bytecode followed by the constructor payload, as the deployed code; the rest
is as in `sampleEnv`. -/
def echoEnv : Env :=
  { StateDB := Storage
    newState := .ok []
    SetBalance := fun s _ _ => s
    GetOrNewStateObject := fun s _ => (⟨s⟩, s)
    CreateWithAddress := fun _ _ _ s _ code _ _ _ => ⟨code, s ++ [(0, 1)], none⟩
    Call := fun _ _ _ s _ _ _ _ _ => ⟨[], s ++ [(1, 2)], none⟩
    Keccak256 := fun _ => ⟨List.replicate 32 7, List.length_replicate 32 7⟩
    PackOther := fun typeNames _ => .error (.unsupportedType (typeNames.headD []))
    unmarshalArtifact := fun raw => .ok ⟨raw, []⟩
    EvmHookRuntimeUpgradeAddress := HexToAddress 0x7777
    stakingRawArtifact := str "0x6001"
    stakingPoolRawArtifact := str "0x6002"
    chainConfigRawArtifact := str "0x6003"
    slashingIndicatorRawArtifact := str "0x6004"
    systemRewardRawArtifact := str "0x6005"
    governanceRawArtifact := str "0x6006"
    runtimeUpgradeRawArtifact := str "0x6007"
    deployerProxyRawArtifact := str "0x6008"
    writeError := fun _ => none }

/-- The environment `sampleEnv` with a library stand-in that packs the type
list `uint16, bool`, the second value being `true`, as the ABI does: one word
for each value. -/
def boolEnv : Env :=
  { StateDB := Storage
    newState := .ok []
    SetBalance := fun s _ _ => s
    GetOrNewStateObject := fun s _ => (⟨s⟩, s)
    CreateWithAddress := fun _ _ _ s _ code _ _ _ => ⟨code.take 2, s ++ [(0, 1)], none⟩
    Call := fun _ _ _ s _ _ _ _ _ => ⟨[], s ++ [(1, 2)], none⟩
    Keccak256 := fun _ => ⟨List.replicate 32 7, List.length_replicate 32 7⟩
    PackOther := fun typeNames params =>
      if typeNames = [str "uint16", str "bool"] ∧ params = [GoValue.uint 16 7, GoValue.other 1]
      then .ok (word 7 ++ word 1)
      else .error (.unsupportedType (typeNames.headD []))
    unmarshalArtifact := fun raw => .ok ⟨raw, []⟩
    EvmHookRuntimeUpgradeAddress := HexToAddress 0x7777
    stakingRawArtifact := str "0x6001"
    stakingPoolRawArtifact := str "0x6002"
    chainConfigRawArtifact := str "0x6003"
    slashingIndicatorRawArtifact := str "0x6004"
    systemRewardRawArtifact := str "0x6005"
    governanceRawArtifact := str "0x6006"
    runtimeUpgradeRawArtifact := str "0x6007"
    deployerProxyRawArtifact := str "0x6008"
    writeError := fun _ => none }

/-- A stand-in engine whose creation fails and returns no bytes, as the engine
does when the creation runs out of gas or reverts without a reason. -/
def failingCreationEnv : Env :=
  { StateDB := Storage
    newState := .ok []
    SetBalance := fun s _ _ => s
    GetOrNewStateObject := fun s _ => (⟨s⟩, s)
    CreateWithAddress := fun _ _ _ s _ _ _ _ _ => ⟨[], s, some (str "out of gas")⟩
    Call := fun _ _ _ s _ _ _ _ _ => ⟨[], s ++ [(1, 2)], none⟩
    Keccak256 := fun _ => ⟨List.replicate 32 7, List.length_replicate 32 7⟩
    PackOther := fun typeNames _ => .error (.unsupportedType (typeNames.headD []))
    unmarshalArtifact := fun raw => .ok ⟨raw, []⟩
    EvmHookRuntimeUpgradeAddress := HexToAddress 0x7777
    stakingRawArtifact := str "0x6001"
    stakingPoolRawArtifact := str "0x6002"
    chainConfigRawArtifact := str "0x6003"
    slashingIndicatorRawArtifact := str "0x6004"
    systemRewardRawArtifact := str "0x6005"
    governanceRawArtifact := str "0x6006"
    runtimeUpgradeRawArtifact := str "0x6007"
    deployerProxyRawArtifact := str "0x6008"
    writeError := fun _ => none }

/-- A stand-in engine whose creation succeeds and whose initializer call
fails with a 4-byte return, as a revert with a custom error does. -/
def failingInitializerEnv : Env :=
  { StateDB := Storage
    newState := .ok []
    SetBalance := fun s _ _ => s
    GetOrNewStateObject := fun s _ => (⟨s⟩, s)
    CreateWithAddress := fun _ _ _ s _ code _ _ _ => ⟨code.take 2, s ++ [(0, 1)], none⟩
    Call := fun _ _ _ s _ _ _ _ _ => ⟨[1, 2, 3, 4], s, some (str "execution reverted")⟩
    Keccak256 := fun _ => ⟨List.replicate 32 7, List.length_replicate 32 7⟩
    PackOther := fun typeNames _ => .error (.unsupportedType (typeNames.headD []))
    unmarshalArtifact := fun raw => .ok ⟨raw, []⟩
    EvmHookRuntimeUpgradeAddress := HexToAddress 0x7777
    stakingRawArtifact := str "0x6001"
    stakingPoolRawArtifact := str "0x6002"
    chainConfigRawArtifact := str "0x6003"
    slashingIndicatorRawArtifact := str "0x6004"
    systemRewardRawArtifact := str "0x6005"
    governanceRawArtifact := str "0x6006"
    runtimeUpgradeRawArtifact := str "0x6007"
    deployerProxyRawArtifact := str "0x6008"
    writeError := fun _ => none }

/-- The local profile with a treasury table of two entries, `validatorA` at
6000 and `validatorB` at 7000, in a run that visits `validatorA` first. -/
def treasuryRunAB : genesisConfig :=
  { localNetConfig with
    SystemTreasury := ⟨[(validatorA, 6000), (validatorB, 7000)], by decide⟩ }

/-- The profile of `treasuryRunAB`, in a run that visits `validatorB` first. -/
def treasuryRunBA : genesisConfig :=
  { localNetConfig with
    SystemTreasury := ⟨[(validatorB, 7000), (validatorA, 6000)], by decide⟩ }

/-- The local profile with the commission rate -1. -/
def negativeCommissionRate : genesisConfig :=
  { localNetConfig with CommissionRate := -1 }

/-- The local profile with a single faucet entry whose value has no `0x` in
front of the digits. -/
def faucetUnmarked : genesisConfig :=
  { localNetConfig with Faucet := ⟨[(validatorB, str "zz1f")], by decide⟩ }

/-- The local profile with a single faucet entry whose value is one byte
long. -/
def faucetShortValue : genesisConfig :=
  { localNetConfig with Faucet := ⟨[(validatorB, str "0")], by decide⟩ }

/-! ## Definitions that follow the words of the specification -/

/-- Whether a byte is a hex digit, either case. -/
def isHexDigit (c : Byte) : Bool :=
  (decide (48 ≤ c.val) && decide (c.val ≤ 57)) || (decide (65 ≤ c.val) && decide (c.val ≤ 70))
    || (decide (97 ≤ c.val) && decide (c.val ≤ 102))

/-- A valid base-16 integer text: an optional sign, then one or more hex
digits, and nothing else. -/
def validBase16Text (s : GoString) : Bool :=
  match s with
  | [] => false
  | c :: t =>
    if c.val = 45 ∨ c.val = 43 then !t.isEmpty && t.all isHexDigit
    else (c :: t).all isHexDigit

/-- The constructor arguments of the SystemReward simulation, for the order in
which a run visits the treasury table (lines 277-285). -/
def systemRewardArguments (entries : List (Address × Nat)) : List GoValue :=
  [.addressSlice (entries.map Prod.fst), .uintSlice 16 (entries.map Prod.snd)]

/-- The constructor arguments of the Staking simulation (lines 260-264), for
the stakes decoded by the loop before. -/
def stakingArguments (config : genesisConfig) (initialStakes : List Int) : List GoValue :=
  [.addressSlice config.Validators, .bigIntSlice initialStakes,
    .uint 16 (config.CommissionRate % 65536).toNat]

/-- The genesis the first simulation starts from (lines 240-243). -/
def initialGenesis (config : genesisConfig) : Genesis :=
  { defaultGenesisConfig config with
    ExtraData := createExtraData config.Validators
    Config := { (defaultGenesisConfig config).Config with
      ParliaEpoch := config.ConsensusParams.EpochBlockInterval } }


/-- The stake a profile declares for a validator: the number its entry in the
initial-stakes table denotes. -/
def declaredStake (config : genesisConfig) (v : Address) : Option Int :=
  match config.InitialStakes.get? v with
  | none => none
  | some raw =>
    match DecodeBig raw with
    | .error _ => none
    | .ok n => some (n : Int)

/-- The number a hex string denotes: `0x` or `0X`, then one or more hex
digits. -/
def hexNumber (value : GoString) : Option Int :=
  if hasHexMarker value = true ∧ 2 < value.length then
    match decodeNibbles (value.drop 2) 0 with
    | some n => some (n : Int)
    | none => none
  else none

/-- The number a 32-byte big-endian word denotes. -/
def wordValue (w : Bytes) : Nat := w.foldl (fun acc b => acc * 256 + b.val) 0

/-- Decoding of a buffer as one ABI `bytes` value: the first word is the
offset, which for a single value is 32; the word at the offset is the length;
the data follows and must be there in full, in a buffer that is a whole
number of words. -/
def decodeSingleBytes (payload : Bytes) : Option Bytes :=
  if payload.length % 32 ≠ 0 ∨ payload.length < 64 then none
  else if wordValue (payload.take 32) ≠ 32 then none
  else
    let len := wordValue ((payload.drop 32).take 32)
    if payload.length < 64 + len then none
    else some ((payload.drop 64).take len)

/-- The pending write-set of the target as it stands after the initializer
call of a simulation has run: the dirty storage of its state object in the
state database that call leaves. -/
def writeSetAfterInitializer (env : Env) (genesis : Genesis) (systemContract : Address)
    (rawArtifact : Bytes) (ctor : Bytes) (balance : Option Int) : Option Storage :=
  match env.unmarshalArtifact rawArtifact, env.newState with
  | .ok artifact, .ok statedb =>
    match hexDecode artifact.Bytecode, hexDecode initializerSelector with
    | .ok code, .ok input =>
      let created := runCreation env genesis systemContract (code ++ ctor) balance statedb
      let object := env.GetOrNewStateObject created.statedb systemContract
      let called := runInitializer env genesis systemContract input object.2
      some (env.GetOrNewStateObject called.statedb systemContract).1.dirtyStorage
    | _, _ => none
  | _, _ => none

/-- The pending write-set of the target right after the creation, before the
initializer is called. -/
def writeSetAfterCreation (env : Env) (genesis : Genesis) (systemContract : Address)
    (rawArtifact : Bytes) (ctor : Bytes) (balance : Option Int) : Option Storage :=
  match env.unmarshalArtifact rawArtifact, env.newState with
  | .ok artifact, .ok statedb =>
    match hexDecode artifact.Bytecode with
    | .ok code =>
      let created := runCreation env genesis systemContract (code ++ ctor) balance statedb
      some (env.GetOrNewStateObject created.statedb systemContract).1.dirtyStorage
    | _ => none
  | _, _ => none

/-- The code the creation of a simulation returns. -/
def codeOfCreation (env : Env) (genesis : Genesis) (systemContract : Address)
    (rawArtifact : Bytes) (ctor : Bytes) (balance : Option Int) : Option Bytes :=
  match env.unmarshalArtifact rawArtifact, env.newState with
  | .ok artifact, .ok statedb =>
    match hexDecode artifact.Bytecode with
    | .ok code =>
      some (runCreation env genesis systemContract (code ++ ctor) balance statedb).ret
    | _ => none
  | _, _ => none

/-- The environment with another `evm.Call` in place of its own, and
everything else as it is. -/
def Env.withCall (env : Env)
    (call : BlockContext → TxContext → ChainConfig → env.StateDB →
      Address → Address → Bytes → Nat → Int → CallResult env.StateDB) : Env :=
  { env with Call := call }

/-- An initializer call that succeeds, returns three bytes and writes slot 9:
another behaviour than the call of `sampleEnv`, which writes slot 1. -/
def otherCall : BlockContext → TxContext → ChainConfig → Storage →
    Address → Address → Bytes → Nat → Int → CallResult Storage :=
  fun _ _ _ s _ _ _ _ _ => ⟨[1, 2, 3], s ++ [(9, 9)], none⟩

/-- The eight system-contract addresses, in the order of their simulation. -/
def systemContractAddresses : List Address :=
  [stakingAddress, chainConfigAddress, slashingIndicatorAddress, stakingPoolAddress,
   systemRewardAddress, governanceAddress, runtimeUpgradeAddress, deployerProxyAddress]

/-- The value of a result, when there is one. -/
def Res.result? {α : Type} (r : Res α) : Option α :=
  match r.value with
  | .ok a => some a
  | .error _ => none

/-! # Theorems -/

/-! ## Extra data -/

theorem copy_zeros_address (n : Nat) (v : Address) :
    copy (List.replicate (20 + n) 0) v.Bytes = v.Bytes ++ List.replicate n 0 := by
  have hv : v.Bytes.length = 20 := v.property
  unfold copy
  rw [List.take_of_length_le (by simp [hv])]
  simp [hv, List.drop_replicate]

theorem copyAt_append_zeros (pre : Bytes) (n : Nat) (v : Address) :
    copyAt (pre ++ List.replicate (20 + n) 0) pre.length v.Bytes
      = (pre ++ v.Bytes) ++ List.replicate n 0 := by
  unfold copyAt
  rw [List.take_left, List.drop_left, copy_zeros_address, List.append_assoc]

/-- Closed form of the loop: started on a buffer whose first `32 + 20 * i`
bytes are `pre` and whose rest is zero, it lays the remaining addresses one
after the other behind `pre` and leaves 65 zero bytes. -/
theorem createExtraDataLoop_eq (vs : List Address) :
    ∀ (i : Nat) (pre : Bytes), pre.length = 32 + 20 * i →
      createExtraDataLoop vs i (pre ++ List.replicate (20 * vs.length + 65) 0)
        = pre ++ (vs.map Address.Bytes).flatten ++ List.replicate 65 0 := by
  induction vs with
  | nil => intro i pre _; simp [createExtraDataLoop]
  | cons v rest ih =>
    intro i pre hpre
    have hlen : 20 * (v :: rest).length + 65 = 20 + (20 * rest.length + 65) := by
      simp [List.length_cons]; ring
    have hv : v.Bytes.length = 20 := v.property
    rw [createExtraDataLoop, hlen, ← hpre, copyAt_append_zeros]
    rw [ih (i + 1) (pre ++ v.Bytes) (by simp [hpre, hv]; ring)]
    simp [List.append_assoc]

theorem createExtraData_eq (vs : List Address) :
    createExtraData vs
      = List.replicate 32 0 ++ (vs.map Address.Bytes).flatten ++ List.replicate 65 0 := by
  unfold createExtraData
  have h : 32 + 20 * vs.length + 65 = 32 + (20 * vs.length + 65) := by ring
  rw [h, List.replicate_add]
  exact createExtraDataLoop_eq vs 0 (List.replicate 32 0) (by simp)

theorem flatten_addresses_length (vs : List Address) :
    ((vs.map Address.Bytes).flatten).length = 20 * vs.length := by
  induction vs with
  | nil => rfl
  | cons v rest ih =>
    have hv : v.Bytes.length = 20 := v.property
    simp [List.length_append, ih, hv]; ring

theorem flatten_addresses_slot (vs : List Address) :
    ∀ (i : Nat) (h : i < vs.length) (tail : Bytes),
      (((vs.map Address.Bytes).flatten ++ tail).drop (20 * i)).take 20
        = (vs.get ⟨i, h⟩).Bytes := by
  induction vs with
  | nil => intro i h; simp at h
  | cons v rest ih =>
    intro i h tail
    have hv : v.Bytes.length = 20 := v.property
    cases i with
    | zero =>
      simp only [List.map_cons, List.flatten_cons, Nat.mul_zero, List.drop_zero,
        List.append_assoc]
      rw [List.take_append_of_le_length (by omega), List.take_of_length_le (by omega)]
      rfl
    | succ i =>
      have hd : 20 * (i + 1) = v.Bytes.length + 20 * i := by omega
      simp only [List.map_cons, List.flatten_cons, List.append_assoc]
      rw [hd, List.drop_append]
      exact ih i (by simpa using h) tail

/-- The offset of every `copy` in `createExtraData` lies inside the buffer,
so the slice expression `extra[32+20*i:]` never fails. -/
theorem createExtraData_offset_le (validators : List Address) (i : Nat)
    (h : i < validators.length) :
    32 + 20 * i ≤ (List.replicate (32 + 20 * validators.length + 65) (0 : Byte)).length := by
  simp; omega

/-- C3: for every validator list, also the empty one, `createExtraData`
returns a buffer of exactly `32 + 20 * N + 65` bytes, which is 117 bytes for
a list of one validator. -/
theorem createExtraData_length (validators : List Address) :
    (createExtraData validators).length = 32 + 20 * validators.length + 65
      ∧ (createExtraData []).length = 97
      ∧ ∀ v : Address, (createExtraData [v]).length = 117 := by
  have h : ∀ vs : List Address, (createExtraData vs).length = 32 + 20 * vs.length + 65 := by
    intro vs
    rw [createExtraData_eq, List.length_append, List.length_append, flatten_addresses_length,
      List.length_replicate, List.length_replicate]
  exact ⟨h validators, h [], fun v => h [v]⟩

/-- C4: in the buffer `createExtraData` returns, the first 32 bytes (vanity)
are zero, the last 65 bytes (seal) are zero, and for every `i < N` the 20
bytes from offset `32 + 20 * i` are the bytes of validator `i`; so every
validator sits in its own slot, in list order, and none reaches into another
slot or into the seal. -/
theorem createExtraData_layout (validators : List Address) :
    (createExtraData validators).take 32 = List.replicate 32 0
      ∧ (createExtraData validators).drop (32 + 20 * validators.length) = List.replicate 65 0
      ∧ ∀ i : Fin validators.length,
          ((createExtraData validators).drop (32 + 20 * i.val)).take 20
            = (validators.get i).Bytes := by
  rw [createExtraData_eq]
  refine ⟨?_, ?_, ?_⟩
  · rw [List.append_assoc, List.take_left' (by simp)]
  · have h : 32 + 20 * validators.length
        = (List.replicate 32 (0 : Byte) ++ (validators.map Address.Bytes).flatten).length := by
      rw [List.length_append, flatten_addresses_length, List.length_replicate]
    rw [h, List.drop_left]
  · intro i
    have h : 32 + 20 * i.val = (List.replicate 32 (0 : Byte)).length + 20 * i.val := by simp
    rw [List.append_assoc, h, List.drop_append]
    exact flatten_addresses_slot validators i.val i.isLt _

/-! ## Words and the single `bytes` value -/

theorem beBytes_length (w n : Nat) : (beBytes w n).length = w := by
  induction w generalizing n with
  | zero => rfl
  | succ w ih => simp [beBytes, ih]

theorem word_length (n : Nat) : (word n).length = 32 := beBytes_length 32 n

theorem wordValue_append_single (l : Bytes) (b : Byte) :
    wordValue (l ++ [b]) = wordValue l * 256 + b.val := by
  simp [wordValue, List.foldl_append]

theorem wordValue_beBytes (w n : Nat) : wordValue (beBytes w n) = n % 256 ^ w := by
  induction w generalizing n with
  | zero => simp [beBytes, wordValue, Nat.mod_one]
  | succ w ih =>
    rw [beBytes, wordValue_append_single, ih]
    have h1 : (Fin.ofNat (n % 256) : Byte).val = n % 256 := by
      simp [Fin.ofNat]
    rw [h1, pow_succ, Nat.mul_comm (256 ^ w) 256, Nat.mod_mul]
    ring

theorem wordValue_word (n : Nat) (h : n < 2 ^ 256) : wordValue (word n) = n := by
  rw [word, wordValue_beBytes]
  exact Nat.mod_eq_of_lt (by simpa using h)

theorem Pack_single_bytes (b : Bytes) :
    Pack [AbiType.bytes] [GoValue.bytes b] = .ok (word 32 ++ packBytesSlice b) := by
  simp [Pack, packLoop, AbiType.pack, isDynamicType, getTypeSize]

theorem newArguments_bytes : newArguments [str "bytes"] = some [AbiType.bytes] := by
  decide

/-- The packing of lines 227-230: one `bytes` value. -/
theorem packConstructorArguments_bytes (env : Env) (b : Bytes) :
    packConstructorArguments env [str "bytes"] [GoValue.bytes b]
      = .ok (word 32 ++ packBytesSlice b) := by
  unfold packConstructorArguments
  have hv : interpretsValues [AbiType.bytes] [GoValue.bytes b] = true := rfl
  simp only [newArguments_bytes, hv, if_true, Pack_single_bytes]

/-- The padded length of the data: the next multiple of 32. -/
theorem padded_length (n : Nat) :
    n + ((n + 31) / 32 * 32 - n) = (n + 31) / 32 * 32 ∧ ((n + 31) / 32 * 32) % 32 = 0 := by
  constructor
  · have := Nat.div_add_mod (n + 31) 32
    have := Nat.mod_lt (n + 31) (by decide : 32 > 0)
    omega
  · exact Nat.mul_mod_left _ _

theorem constructorPayload_eq (env : Env) (typeNames : List GoString) (params : List GoValue)
    (inner : Bytes) (h : innerPayload env typeNames params = .ok inner) :
    constructorPayload env typeNames params
      = .ok (word 32 ++ (word inner.length ++ inner
          ++ List.replicate ((inner.length + 31) / 32 * 32 - inner.length) 0)) := by
  unfold constructorPayload
  rw [h]
  simp only [packConstructorArguments_bytes, packBytesSlice]

theorem decodeSingleBytes_encoding (inner : Bytes) (h : inner.length < 2 ^ 256) :
    decodeSingleBytes (word 32 ++ (word inner.length ++ inner
        ++ List.replicate ((inner.length + 31) / 32 * 32 - inner.length) 0)) = some inner := by
  have hp := padded_length inner.length
  have hlen : (word 32 ++ (word inner.length ++ inner
        ++ List.replicate ((inner.length + 31) / 32 * 32 - inner.length) 0)).length
        = 64 + (inner.length + 31) / 32 * 32 := by
    simp only [List.length_append, word_length, List.length_replicate]
    omega
  have h32 : wordValue (word 32) = 32 := wordValue_word 32 (by norm_num)
  unfold decodeSingleBytes
  rw [hlen]
  have htake : (word 32 ++ (word inner.length ++ inner
        ++ List.replicate ((inner.length + 31) / 32 * 32 - inner.length) 0)).take 32
        = word 32 := by
    rw [List.take_left' (word_length 32)]
  have hdrop : (word 32 ++ (word inner.length ++ inner
        ++ List.replicate ((inner.length + 31) / 32 * 32 - inner.length) 0)).drop 32
        = word inner.length ++ inner
          ++ List.replicate ((inner.length + 31) / 32 * 32 - inner.length) 0 := by
    rw [List.drop_left' (word_length 32)]
  have hdrop64 : (word 32 ++ (word inner.length ++ inner
        ++ List.replicate ((inner.length + 31) / 32 * 32 - inner.length) 0)).drop 64
        = inner ++ List.replicate ((inner.length + 31) / 32 * 32 - inner.length) 0 := by
    have : (64 : Nat) = 32 + 32 := rfl
    rw [this, ← List.drop_drop, hdrop, List.append_assoc,
      List.drop_left' (word_length inner.length)]
  have htake2 : (word inner.length ++ inner
        ++ List.replicate ((inner.length + 31) / 32 * 32 - inner.length) 0).take 32
        = word inner.length := by
    rw [List.append_assoc, List.take_left' (word_length inner.length)]
  rw [htake, hdrop, htake2, hdrop64, h32, wordValue_word inner.length h]
  have hmod : (64 + (inner.length + 31) / 32 * 32) % 32 = 0 := by omega
  have hle : inner.length ≤ (inner.length + 31) / 32 * 32 := by omega
  simp only [hmod, ne_eq, not_true_eq_false, false_or]
  rw [if_neg (by omega), if_neg (by simp), if_neg (by omega), List.take_left]

/-- C5: for every valid pair of type names and values, that is, every pair
for which the packing of line 221 succeeds, whatever the types are, the
payload that `invokeConstructorOrPanic` builds is the ABI encoding of one
`bytes` value (offset word 0x20, length word, the data, zero padding up to a
multiple of 32 bytes), and decoding it as one ABI `bytes` value gives back
exactly the selector followed by the packed arguments. The bound on the
length is the one every Go slice meets. -/
theorem constructorPayload_roundtrip (env : Env) (typeNames : List GoString)
    (params : List GoValue) (args : Bytes)
    (hargs : packConstructorArguments env typeNames params = .ok args)
    (hlen : (ctorSelector env typeNames ++ args).length < 2 ^ 63) :
    ∃ payload : Bytes,
      constructorPayload env typeNames params = .ok payload
      ∧ payload = word 32 ++ (word (ctorSelector env typeNames ++ args).length
          ++ (ctorSelector env typeNames ++ args)
          ++ List.replicate (((ctorSelector env typeNames ++ args).length + 31) / 32 * 32
              - (ctorSelector env typeNames ++ args).length) 0)
      ∧ payload.length % 32 = 0
      ∧ decodeSingleBytes payload = some (ctorSelector env typeNames ++ args) := by
  have hinner : innerPayload env typeNames params = .ok (ctorSelector env typeNames ++ args) := by
    unfold innerPayload
    rw [hargs]
  have hbound : (ctorSelector env typeNames ++ args).length < 2 ^ 256 :=
    Nat.lt_of_lt_of_le hlen (Nat.pow_le_pow_right (by decide) (by decide))
  refine ⟨_, constructorPayload_eq env typeNames params _ hinner, rfl, ?_,
    decodeSingleBytes_encoding _ hbound⟩
  have hp := padded_length (ctorSelector env typeNames ++ args).length
  simp only [List.length_append, word_length, List.length_replicate] at hp ⊢
  omega

set_option maxRecDepth 100000 in
/-- C5 on a list with a type the model does not interpret, `bool`, packed by
the library to one word. -/
theorem constructorPayload_roundtrip_witness :
    packConstructorArguments boolEnv [str "uint16", str "bool"]
        [GoValue.uint 16 7, GoValue.other 1] = .ok (word 7 ++ word 1)
      ∧ ∃ payload : Bytes,
        constructorPayload boolEnv [str "uint16", str "bool"]
          [GoValue.uint 16 7, GoValue.other 1] = .ok payload
        ∧ payload = word 32
            ++ (word (ctorSelector boolEnv [str "uint16", str "bool"]
                  ++ (word 7 ++ word 1)).length
              ++ (ctorSelector boolEnv [str "uint16", str "bool"] ++ (word 7 ++ word 1))
              ++ List.replicate (((ctorSelector boolEnv [str "uint16", str "bool"]
                    ++ (word 7 ++ word 1)).length + 31) / 32 * 32
                  - (ctorSelector boolEnv [str "uint16", str "bool"]
                    ++ (word 7 ++ word 1)).length) 0)
        ∧ payload.length % 32 = 0
        ∧ decodeSingleBytes payload
            = some (ctorSelector boolEnv [str "uint16", str "bool"] ++ (word 7 ++ word 1)) :=
  ⟨by decide,
    constructorPayload_roundtrip boolEnv [str "uint16", str "bool"]
      [GoValue.uint 16 7, GoValue.other 1] (word 7 ++ word 1) (by decide) (by decide)⟩

/-! ## The selector and the packed arguments -/

theorem newArguments_length (typeNames : List GoString) :
    ∀ ts : List AbiType, newArguments typeNames = some ts → ts.length = typeNames.length := by
  induction typeNames with
  | nil => intro ts h; simp [newArguments] at h; subst h; rfl
  | cons tn rest ih =>
    intro ts h
    unfold newArguments at h
    split at h
    · cases h
    · split at h
      · cases h
      · rename_i ts' hrest
        cases h
        simp [ih ts' hrest]

theorem U256Bytes_length (v : Int) : (U256Bytes v).length = 32 := word_length _

theorem packAddress_length (a : Address) : (packAddress a).length = 32 := by
  have h : a.Bytes.length = 20 := a.property
  simp [packAddress, h]

theorem flatten_words_length {α : Type} (f : α → Bytes) (hf : ∀ a, (f a).length = 32)
    (l : List α) : ((l.map f).flatten).length = l.length * 32 := by
  induction l with
  | nil => rfl
  | cons a rest ih =>
    simp only [List.map_cons, List.flatten_cons, List.length_append, hf, ih, List.length_cons]
    ring

/-- A value of a type without a tail is packed into exactly its head slot. -/
theorem pack_static_length (index : Nat) (t : AbiType) (a : GoValue) (packed : Bytes)
    (hdyn : isDynamicType t = false) (h : t.pack index a = .ok packed) :
    packed.length = getTypeSize t := by
  cases t with
  | slice e => simp [isDynamicType] at hdyn
  | bytes => simp [isDynamicType] at hdyn
  | elem e =>
    cases e with
    | address =>
      cases a <;> simp [AbiType.pack] at h
      subst h
      exact packAddress_length _
    | uint bits =>
      cases a <;> simp only [AbiType.pack] at h
      case uint =>
        split at h
        · rw [← Except.ok.inj h]; exact word_length _
        · exact absurd h (by simp)
      case bigInt =>
        split at h
        · exact absurd h (by simp)
        · split at h
          · exact absurd h (by simp)
          · rw [← Except.ok.inj h]; exact U256Bytes_length _
      all_goals exact absurd h (by simp)
  | array size e =>
    cases e with
    | address =>
      cases a <;> simp only [AbiType.pack] at h
      case addressArray l =>
        split at h
        · rename_i hl
          rw [← Except.ok.inj h, flatten_words_length _ packAddress_length, hl]
          rfl
        · exact absurd h (by simp)
      all_goals exact absurd h (by simp)
    | uint bits =>
      cases a <;> simp only [AbiType.pack] at h
      case uintArray bits' l =>
        split at h
        · rename_i hl
          rw [← Except.ok.inj h, flatten_words_length _ word_length, hl.2.2]
          rfl
        · exact absurd h (by simp)
      case bigIntArray l =>
        split at h
        · exact absurd h (by simp)
        · split at h
          · rename_i hl
            rw [← Except.ok.inj h, flatten_words_length _ U256Bytes_length, hl]
            rfl
          · exact absurd h (by simp)
      all_goals exact absurd h (by simp)

theorem getTypeSize_dynamic (t : AbiType) (h : isDynamicType t = true) : getTypeSize t = 32 := by
  cases t <;> simp [isDynamicType] at h <;> rfl

/-- Every argument adds its head slot to the head part of the output. -/
theorem packLoop_length (ts : List AbiType) :
    ∀ (index : Nat) (as : List GoValue) (off : Nat) (ret variableInput out : Bytes),
      as.length = ts.length → packLoop index ts as off ret variableInput = .ok out →
      ret.length + (ts.map getTypeSize).sum ≤ out.length := by
  induction ts with
  | nil =>
    intro index as off ret variableInput out _ h
    cases as <;> simp [packLoop] at h <;> subst h <;> simp
  | cons t ts ih =>
    intro index as off ret variableInput out hlen h
    cases as with
    | nil => simp at hlen
    | cons a as =>
      have hlen' : as.length = ts.length := by simpa using hlen
      rw [packLoop] at h
      split at h
      · cases h
      · rename_i packed hpacked
        split at h
        · rename_i hdyn
          have := ih _ _ _ _ _ _ hlen' h
          have h32 := getTypeSize_dynamic t hdyn
          simp only [List.length_append, word_length, List.map_cons, List.sum_cons] at this ⊢
          omega
        · rename_i hdyn
          have h32 := pack_static_length index t a packed (by simpa using hdyn) hpacked
          have := ih _ _ _ _ _ _ hlen' h
          simp only [List.length_append, List.map_cons, List.sum_cons] at this ⊢
          omega

theorem isDynamicType_of_size_zero (t : AbiType) (h : getTypeSize t = 0) :
    isDynamicType t = false := by
  cases t with
  | array size e => rfl
  | elem e => simp [getTypeSize] at h
  | slice e => simp [getTypeSize] at h
  | bytes => simp [getTypeSize] at h

/-- Arguments whose head slots are all empty add nothing to the output. -/
theorem packLoop_of_size_zero (ts : List AbiType) :
    ∀ (index : Nat) (as : List GoValue) (off : Nat) (ret variableInput out : Bytes),
      (∀ t ∈ ts, getTypeSize t = 0) → packLoop index ts as off ret variableInput = .ok out →
      out = ret ++ variableInput := by
  induction ts with
  | nil =>
    intro index as off ret variableInput out _ h
    cases as <;> simp [packLoop] at h <;> exact h.symm
  | cons t ts ih =>
    intro index as off ret variableInput out hz h
    cases as with
    | nil => simp [packLoop] at h; exact h.symm
    | cons a as =>
      have hz0 : getTypeSize t = 0 := hz t (List.mem_cons_self t ts)
      have hstat := isDynamicType_of_size_zero t hz0
      rw [packLoop] at h
      split at h
      · cases h
      · rename_i packed hpacked
        have hlen := pack_static_length index t a packed hstat hpacked
        rw [hz0] at hlen
        have hnil : packed = [] := List.length_eq_zero.mp hlen
        subst hnil
        simp only [hstat, Bool.false_eq_true, if_false, List.append_nil] at h
        exact ih _ _ _ _ _ _ (fun u hu => hz u (List.mem_cons_of_mem t hu)) h

theorem Pack_length (ts : List AbiType) (as : List GoValue) (out : Bytes)
    (h : Pack ts as = .ok out) : (ts.map getTypeSize).sum ≤ out.length := by
  unfold Pack at h
  split at h
  · cases h
  · rename_i hlen
    have := packLoop_length ts 0 as _ [] [] out (by simpa using hlen) h
    simpa using this

theorem Pack_of_size_zero (ts : List AbiType) (as : List GoValue) (out : Bytes)
    (hz : ∀ t ∈ ts, getTypeSize t = 0) (h : Pack ts as = .ok out) : out = [] := by
  unfold Pack at h
  split at h
  · cases h
  · simpa using packLoop_of_size_zero ts 0 as _ [] [] out hz h

theorem sum_eq_zero_of_le_zero (l : List Nat) (h : l.sum ≤ 0) : ∀ n ∈ l, n = 0 := by
  induction l with
  | nil => intro n hn; simp at hn
  | cons a rest ih =>
    intro n hn
    simp only [List.sum_cons] at h
    rcases List.mem_cons.mp hn with hn | hn
    · omega
    · exact ih (by omega) n hn

theorem ctorSelector_length (env : Env) (typeNames : List GoString) :
    (ctorSelector env typeNames).length = 4 := by
  have h := (env.Keccak256 (ctorSignature typeNames)).property
  simp [ctorSelector, h]

/-- C6 (amended): the selector that `invokeConstructorOrPanic` puts in front is
the first 4 bytes of the Keccak-256 hash of `ctor(` + the type names joined
with `,` + `)`; it is always there (4 bytes); the packed arguments behind it
are empty when there are no type names; for type names and values the model
interprets they are empty exactly when every type is a fixed-size array of
length 0, so, for a list without such a type, exactly when the list is
empty; and for
no type names the signature is `ctor()` and the inner payload is the 4
selector bytes alone. -/
theorem ctorSelector_spec (env : Env) (typeNames : List GoString) (params : List GoValue)
    (args : Bytes) (hargs : packConstructorArguments env typeNames params = .ok args) :
    ctorSelector env typeNames
        = (env.Keccak256 (str "ctor(" ++ List.intercalate (str ",") typeNames ++ str ")")).val.take 4
      ∧ (ctorSelector env typeNames).length = 4
      ∧ innerPayload env typeNames params = .ok (ctorSelector env typeNames ++ args)
      ∧ (typeNames = [] → args = [])
      ∧ (∀ arguments : List AbiType, newArguments typeNames = some arguments →
          interpretsValues arguments params = true →
          (args = [] ↔ ∀ t ∈ arguments, getTypeSize t = 0))
      ∧ (∀ arguments : List AbiType, newArguments typeNames = some arguments →
          interpretsValues arguments params = true →
          (∀ t ∈ arguments, getTypeSize t ≠ 0) → (args = [] ↔ typeNames = []))
      ∧ (typeNames = [] → ctorSignature typeNames = str "ctor()"
          ∧ innerPayload env typeNames params = .ok (ctorSelector env typeNames)) := by
  have hinner : innerPayload env typeNames params = .ok (ctorSelector env typeNames ++ args) := by
    unfold innerPayload
    rw [hargs]
  have hpack : ∀ arguments : List AbiType, newArguments typeNames = some arguments →
      interpretsValues arguments params = true → Pack arguments params = .ok args := by
    intro arguments ha hv
    unfold packConstructorArguments at hargs
    rw [ha] at hargs
    simpa only [hv, if_true] using hargs
  have hiff : ∀ arguments : List AbiType, newArguments typeNames = some arguments →
      interpretsValues arguments params = true →
      (args = [] ↔ ∀ t ∈ arguments, getTypeSize t = 0) := by
    intro arguments ha hv
    constructor
    · intro hnil t ht
      have h1 := Pack_length arguments params args (hpack arguments ha hv)
      rw [hnil] at h1
      exact sum_eq_zero_of_le_zero _ (by simpa using h1) _ (List.mem_map.mpr ⟨t, ht, rfl⟩)
    · intro hz
      exact Pack_of_size_zero arguments params args hz (hpack arguments ha hv)
  have hnil : typeNames = [] → args = [] := by
    intro hn
    subst hn
    have hv : interpretsValues [] params = true := by
      cases params <;> rfl
    exact (hiff [] rfl hv).mpr (fun t ht => by simp at ht)
  refine ⟨rfl, ctorSelector_length env typeNames, hinner, hnil, hiff, ?_, ?_⟩
  · intro arguments ha hv hnz
    constructor
    · intro hargsnil
      have hz := (hiff arguments ha hv).mp hargsnil
      have hlen := newArguments_length typeNames arguments ha
      cases arguments with
      | nil => exact List.length_eq_zero.mp (by simpa using hlen.symm)
      | cons t ts =>
        exact absurd (hz t (List.mem_cons_self t ts)) (hnz t (List.mem_cons_self t ts))
    · exact hnil
  · intro hn
    refine ⟨by subst hn; decide, ?_⟩
    rw [hinner, hnil hn, List.append_nil]

set_option maxRecDepth 100000 in
/-- The amended C6 on the type names of the SystemReward constructor,
`address[]` and `uint16[]`, with one treasury entry: the packed arguments are
six words, and they are empty exactly when the list of type names is. -/
theorem ctorSelector_spec_witness :
    packConstructorArguments sampleEnv [str "address[]", str "uint16[]"]
        (systemRewardArguments [(validatorA, 10000)])
      = .ok (word 64 ++ word 128 ++ (word 1 ++ packAddress validatorA)
          ++ (word 1 ++ word 10000))
    ∧ (ctorSelector sampleEnv [str "address[]", str "uint16[]"]).length = 4
    ∧ ((word 64 ++ word 128 ++ (word 1 ++ packAddress validatorA)
          ++ (word 1 ++ word 10000) = [])
        ↔ [str "address[]", str "uint16[]"] = ([] : List GoString)) :=
  ⟨by decide,
    (ctorSelector_spec sampleEnv [str "address[]", str "uint16[]"]
      (systemRewardArguments [(validatorA, 10000)])
      (word 64 ++ word 128 ++ (word 1 ++ packAddress validatorA) ++ (word 1 ++ word 10000))
      (by decide)).2.1,
    (ctorSelector_spec sampleEnv [str "address[]", str "uint16[]"]
      (systemRewardArguments [(validatorA, 10000)])
      (word 64 ++ word 128 ++ (word 1 ++ packAddress validatorA) ++ (word 1 ++ word 10000))
      (by decide)).2.2.2.2.2.1
        [AbiType.slice AbiElem.address, AbiType.slice (AbiElem.uint 16)] (by decide)
        (by decide) (by decide)⟩

set_option maxRecDepth 100000 in
/-- C6 as stated fails: for the one type name `uint256[0]` with an array of no
elements the packing succeeds, the list of type names is not empty, and the
packed arguments are empty, so the inner payload is the selector alone. -/
theorem zero_length_array_counterexample :
    packConstructorArguments sampleEnv [str "uint256[0]"] [GoValue.bigIntArray []] = .ok []
      ∧ [str "uint256[0]"] ≠ ([] : List GoString)
      ∧ innerPayload sampleEnv [str "uint256[0]"] [GoValue.bigIntArray []]
          = .ok (ctorSelector sampleEnv [str "uint256[0]"]) := by
  decide

/-! ## Results -/

theorem Res.bind_value_ok {α β : Type} (x : Res α) (f : α → Res β) (b : β) :
    (x >>= f).value = .ok b ↔ ∃ a, x.value = .ok a ∧ (f a).value = .ok b := by
  show (Res.bind x f).value = .ok b ↔ _
  unfold Res.bind
  cases hx : x.value with
  | error e => simp
  | ok a => simp

theorem Res.bind_events_of_ok {α β : Type} (x : Res α) (f : α → Res β) (a : α)
    (h : x.value = .ok a) : (x >>= f).events = x.events ++ (f a).events := by
  show (Res.bind x f).events = _
  unfold Res.bind
  rw [h]

theorem Res.bind_of_error {α β : Type} (x : Res α) (f : α → Res β) (e : Failure)
    (h : x.value = .error e) : (x >>= f) = ⟨x.events, .error e⟩ := by
  show Res.bind x f = _
  unfold Res.bind
  rw [h]

theorem MustDecode_ok (input : GoString) (b : Bytes) (h : (MustDecode input).value = .ok b) :
    hexDecode input = .ok b := by
  unfold MustDecode at h
  split at h
  · simp [Res.fail] at h
  · rename_i b' hb
    simp [Res.pure] at h
    rw [hb, h]

/-! ## Association lists -/

theorem lookupKey_setEntry_self {β : Type} (k : Address) (v : β) (l : List (Address × β)) :
    lookupKey k (setEntry k v l) = some v := by
  induction l with
  | nil => simp [setEntry, lookupKey]
  | cons p rest ih =>
    obtain ⟨k', v'⟩ := p
    by_cases hk : k' = k
    · simp [setEntry, lookupKey, hk]
    · simp [setEntry, lookupKey, hk, ih]

theorem lookupKey_setEntry_ne {β : Type} (k k' : Address) (v : β) (l : List (Address × β))
    (h : k' ≠ k) : lookupKey k' (setEntry k v l) = lookupKey k' l := by
  induction l with
  | nil => simp [setEntry, lookupKey, h.symm]
  | cons p rest ih =>
    obtain ⟨k'', v''⟩ := p
    by_cases hk : k'' = k
    · subst hk
      simp [setEntry, lookupKey, h.symm]
    · by_cases hk' : k'' = k'
      · subst hk'
        simp [setEntry, lookupKey, hk]
      · simp [setEntry, lookupKey, hk, hk', ih]

/-- Keys after `m[k] = v`: unchanged when `k` is a key already, `k` added at
the end otherwise. -/
theorem keys_setEntry {β : Type} (k : Address) (v : β) (l : List (Address × β)) :
    (setEntry k v l).map Prod.fst
      = if k ∈ l.map Prod.fst then l.map Prod.fst else l.map Prod.fst ++ [k] := by
  induction l with
  | nil => simp [setEntry]
  | cons p rest ih =>
    obtain ⟨k', v'⟩ := p
    by_cases hk : k' = k
    · subst hk
      simp [setEntry]
    · have hk2 : ¬ k = k' := fun h => hk h.symm
      simp only [setEntry, hk, if_false, List.map_cons, ih, List.mem_cons, hk2, false_or]
      split <;> simp

theorem GenesisAlloc.get?_set_self (alloc : GenesisAlloc) (k : Address) (v : GenesisAccount) :
    (alloc.set k v).get? k = some v :=
  lookupKey_setEntry_self k v alloc.entries

theorem GenesisAlloc.get?_set_ne (alloc : GenesisAlloc) (k k' : Address) (v : GenesisAccount)
    (h : k' ≠ k) : (alloc.set k v).get? k' = alloc.get? k' :=
  lookupKey_setEntry_ne k k' v alloc.entries h

theorem GenesisAlloc.keys_set (alloc : GenesisAlloc) (k : Address) (v : GenesisAccount) :
    (alloc.set k v).keys = if k ∈ alloc.keys then alloc.keys else alloc.keys ++ [k] :=
  keys_setEntry k v alloc.entries

theorem GenesisAlloc.mem_keys_set (alloc : GenesisAlloc) (k : Address) (v : GenesisAccount)
    (a : Address) : a ∈ (alloc.set k v).keys ↔ a ∈ alloc.keys ∨ a = k := by
  rw [GenesisAlloc.keys_set]
  split
  · constructor
    · intro h; exact Or.inl h
    · rintro (h | h)
      · exact h
      · subst h; assumption
  · simp

theorem GenesisAlloc.nodup_keys_set (alloc : GenesisAlloc) (k : Address) (v : GenesisAccount)
    (h : alloc.keys.Nodup) : (alloc.set k v).keys.Nodup := by
  rw [GenesisAlloc.keys_set]
  split
  · exact h
  · rename_i hk
    exact List.Nodup.append h (List.nodup_singleton k) (by simpa using hk)

/-! ## The simulation of one contract -/

/-- What a successful simulation leaves: the input genesis with, at the
target address, the code the creation returned, the write-set read right
after the creation, balance 0 and nonce 0. -/
theorem simulateSystemContract_ok (env : Env) (genesis : Genesis) (systemContract : Address)
    (rawArtifact ctor : Bytes) (balance : Option Int) (result : Genesis)
    (h : (simulateSystemContract env genesis systemContract rawArtifact ctor balance).value
      = .ok result) :
    ∃ (artifact : artifactData) (code : Bytes) (statedb : env.StateDB),
      env.unmarshalArtifact rawArtifact = .ok artifact
      ∧ hexDecode artifact.Bytecode = .ok code
      ∧ env.newState = .ok statedb
      ∧ result = { genesis with
          Alloc := genesis.Alloc.set systemContract
            { Code := (runCreation env genesis systemContract (code ++ ctor) balance statedb).ret
              Storage := (env.GetOrNewStateObject
                (runCreation env genesis systemContract (code ++ ctor) balance statedb).statedb
                systemContract).1.dirtyStorage
              Balance := some 0
              Nonce := 0 } } := by
  unfold simulateSystemContract at h
  rw [Res.bind_value_ok] at h
  obtain ⟨_, _, h⟩ := h
  split at h
  · simp [Res.fail] at h
  · rename_i artifact hart
    rw [Res.bind_value_ok] at h
    obtain ⟨code, hcode, h⟩ := h
    split at h
    · simp [Res.fail] at h
    · rename_i statedb hstate
      simp only [] at h
      split at h
      · rw [Res.bind_value_ok] at h
        obtain ⟨_, _, h⟩ := h
        simp [Res.fail] at h
      · rw [Res.bind_value_ok] at h
        obtain ⟨input, _, h⟩ := h
        split at h
        · rw [Res.bind_value_ok] at h
          obtain ⟨_, _, h⟩ := h
          simp [Res.fail] at h
        · refine ⟨artifact, code, statedb, hart, MustDecode_ok _ _ hcode, hstate, ?_⟩
          have := Except.ok.inj h
          exact this.symm

theorem Res.orPanic_value_ok {α : Type} (x : Res α) (a : α)
    (h : (Res.orPanic x).value = .ok a) : x.value = .ok a := by
  unfold Res.orPanic at h
  split at h
  · simp at h
  · exact h

/-- A successful `invokeConstructorOrPanic` changes the genesis at the
contract's allocation entry only, which it sets to an account with balance 0
and nonce 0. -/
theorem invokeConstructorOrPanic_ok (env : Env) (genesis : Genesis) (contract : Address)
    (rawArtifact : Bytes) (typeNames : List GoString) (params : List GoValue) (silent : Bool)
    (balance : Option Int) (result : Genesis)
    (h : (invokeConstructorOrPanic env genesis contract rawArtifact typeNames params silent
      balance).value = .ok result) :
    ∃ account : GenesisAccount,
      account.Balance = some 0 ∧ account.Nonce = 0
      ∧ result = { genesis with Alloc := genesis.Alloc.set contract account } := by
  unfold invokeConstructorOrPanic at h
  split at h
  · simp [Res.fail] at h
  · rename_i ctor _
    have h2 : (simulateSystemContract env genesis contract rawArtifact ctor balance).value
        = .ok result := by
      simp only [] at h
      split at h
      · rw [Res.bind_value_ok] at h
        obtain ⟨_, _, h⟩ := h
        exact Res.orPanic_value_ok _ _ h
      · rw [Res.bind_value_ok] at h
        obtain ⟨_, _, h⟩ := h
        exact Res.orPanic_value_ok _ _ h
    obtain ⟨artifact, code, statedb, _, _, _, hres⟩ :=
      simulateSystemContract_ok env genesis contract rawArtifact ctor balance result h2
    exact ⟨_, rfl, rfl, hres⟩

/-- The stakes loop: when it succeeds, every validator it visited has a
declared stake, and the total grew by the sum of them. -/
theorem collectInitialStakes_ok (config : genesisConfig) (vs : List Address) :
    ∀ (acc : List Int) (total : Int) (stakes : List Int) (sum : Int),
      collectInitialStakes config.InitialStakes vs acc total = .ok (stakes, sum) →
      (∀ v ∈ vs, (declaredStake config v).isSome = true)
        ∧ sum = total + (vs.map (fun v => (declaredStake config v).getD 0)).sum := by
  induction vs with
  | nil =>
    intro acc total stakes sum h
    simp only [collectInitialStakes, Except.ok.injEq, Prod.mk.injEq] at h
    simp [h.2]
  | cons v rest ih =>
    intro acc total stakes sum h
    rw [collectInitialStakes] at h
    split at h
    · exact absurd h (by simp)
    · rename_i raw hraw
      split at h
      · exact absurd h (by simp)
      · rename_i n hn
        have hd : declaredStake config v = some (n : Int) := by
          simp only [declaredStake, hraw, hn]
        obtain ⟨h1, h2⟩ := ih _ _ _ _ h
        refine ⟨?_, ?_⟩
        · intro u hu
          rcases List.mem_cons.mp hu with hu | hu
          · subst hu; simp [hd]
          · exact h1 u hu
        · rw [h2]
          simp only [List.map_cons, List.sum_cons, hd, Option.getD_some]
          ring

/-- The stakes loop stops with the missing-stake error at the first validator
without an entry, when the stakes before it decode. -/
theorem collectInitialStakes_missing (stakes : GoMap GoString) (pre : List Address) :
    ∀ (v : Address) (post : List Address) (acc : List Int) (total : Int),
      stakes.get? v = none →
      (∀ u ∈ pre, ∃ raw n, stakes.get? u = some raw ∧ DecodeBig raw = .ok n) →
      collectInitialStakes stakes (pre ++ v :: post) acc total
        = .error (.initialStakeNotFound v) := by
  induction pre with
  | nil =>
    intro v post acc total hv _
    simp only [List.nil_append, collectInitialStakes, hv]
  | cons u pre ih =>
    intro v post acc total hv hpre
    obtain ⟨raw, n, hraw, hn⟩ := hpre u (List.mem_cons_self u pre)
    simp only [List.cons_append, collectInitialStakes, hraw, hn]
    exact ih v post _ _ hv (fun w hw => hpre w (List.mem_cons_of_mem u hw))

/-- The stakes loop fails whenever some validator has no entry: with the
missing-stake error, or with the decoding error of an earlier stake. -/
theorem collectInitialStakes_fails (stakes : GoMap GoString) (vs : List Address) :
    ∀ (acc : List Int) (total : Int), (∃ v ∈ vs, stakes.get? v = none) →
      ∃ e, collectInitialStakes stakes vs acc total = .error e := by
  induction vs with
  | nil => intro acc total h; obtain ⟨v, hv, _⟩ := h; simp at hv
  | cons u rest ih =>
    intro acc total h
    rw [collectInitialStakes]
    split
    · exact ⟨_, rfl⟩
    · rename_i raw hraw
      split
      · exact ⟨_, rfl⟩
      · apply ih
        obtain ⟨v, hv, hnone⟩ := h
        rcases List.mem_cons.mp hv with hv | hv
        · subst hv; rw [hraw] at hnone; cases hnone
        · exact ⟨v, hv, hnone⟩

theorem assembleGenesis_of_stakes_error (env : Env) (config : genesisConfig)
    (targetFile : GoString) (e : ErrorValue)
    (h : collectInitialStakes config.InitialStakes config.Validators [] 0 = .error e) :
    assembleGenesis env config targetFile = ⟨[], .error (.error e)⟩ := by
  unfold assembleGenesis
  simp only [h]
  rfl

theorem createGenesisConfig_of_stakes_error (env : Env) (config : genesisConfig)
    (targetFile : GoString) (e : ErrorValue)
    (h : collectInitialStakes config.InitialStakes config.Validators [] 0 = .error e) :
    createGenesisConfig env config targetFile = ⟨[], .error (.error e)⟩ := by
  unfold createGenesisConfig
  rw [Res.bind_of_error _ _ (.error e)
    (by rw [assembleGenesis_of_stakes_error env config targetFile e h])]
  rw [assembleGenesis_of_stakes_error env config targetFile e h]

/-- The allocation map after the eight simulations has exactly the eight
system-contract addresses as keys. -/
theorem keys_after_simulations (a1 a2 a3 a4 a5 a6 a7 a8 : GenesisAccount) :
    ((((((((((⟨[]⟩ : GenesisAlloc).set stakingAddress a1).set chainConfigAddress a2).set
      slashingIndicatorAddress a3).set stakingPoolAddress a4).set systemRewardAddress a5).set
      governanceAddress a6).set runtimeUpgradeAddress a7).set deployerProxyAddress a8).keys)
      = systemContractAddresses := by
  rfl

theorem get?_staking_after_simulations (a1 a2 a3 a4 a5 a6 a7 a8 : GenesisAccount) :
    ((((((((((⟨[]⟩ : GenesisAlloc).set stakingAddress a1).set chainConfigAddress a2).set
      slashingIndicatorAddress a3).set stakingPoolAddress a4).set systemRewardAddress a5).set
      governanceAddress a6).set runtimeUpgradeAddress a7).set deployerProxyAddress a8).get?
      stakingAddress) = some a1 := by
  rfl

/-- What a successful assembly went through: the stakes loop succeeded, the
eight simulations left an allocation map `alloc8` with the eight system
addresses as keys, the intermediary entry and the Staking balance were set,
and the faucet loop over the result gave the final allocation map. -/
theorem assembleGenesis_ok (env : Env) (config : genesisConfig) (targetFile : GoString)
    (result : Genesis) (h : (assembleGenesis env config targetFile).value = .ok result) :
    ∃ (stakes : List Int) (total : Int) (alloc8 : GenesisAlloc) (staking : GenesisAccount),
      collectInitialStakes config.InitialStakes config.Validators [] 0 = .ok (stakes, total)
      ∧ alloc8.keys = systemContractAddresses
      ∧ alloc8.get? stakingAddress = some staking
      ∧ applyFaucet config.Faucet.entries
          ((alloc8.set intermediarySystemAddress { Balance := some 0 }).set stakingAddress
            { staking with Balance := some total }) = .ok result.Alloc := by
  unfold assembleGenesis at h
  simp only [] at h
  split at h
  · simp [Res.fail] at h
  · rename_i stakes total hstakes
    rw [Res.bind_value_ok] at h
    obtain ⟨g1, h1, h⟩ := h
    obtain ⟨a1, _, _, e1⟩ := invokeConstructorOrPanic_ok _ _ _ _ _ _ _ _ _ h1
    rw [Res.bind_value_ok] at h
    obtain ⟨g2, h2, h⟩ := h
    obtain ⟨a2, _, _, e2⟩ := invokeConstructorOrPanic_ok _ _ _ _ _ _ _ _ _ h2
    rw [Res.bind_value_ok] at h
    obtain ⟨g3, h3, h⟩ := h
    obtain ⟨a3, _, _, e3⟩ := invokeConstructorOrPanic_ok _ _ _ _ _ _ _ _ _ h3
    rw [Res.bind_value_ok] at h
    obtain ⟨g4, h4, h⟩ := h
    obtain ⟨a4, _, _, e4⟩ := invokeConstructorOrPanic_ok _ _ _ _ _ _ _ _ _ h4
    rw [Res.bind_value_ok] at h
    obtain ⟨g5, h5, h⟩ := h
    obtain ⟨a5, _, _, e5⟩ := invokeConstructorOrPanic_ok _ _ _ _ _ _ _ _ _ h5
    rw [Res.bind_value_ok] at h
    obtain ⟨g6, h6, h⟩ := h
    obtain ⟨a6, _, _, e6⟩ := invokeConstructorOrPanic_ok _ _ _ _ _ _ _ _ _ h6
    rw [Res.bind_value_ok] at h
    obtain ⟨g7, h7, h⟩ := h
    obtain ⟨a7, _, _, e7⟩ := invokeConstructorOrPanic_ok _ _ _ _ _ _ _ _ _ h7
    rw [Res.bind_value_ok] at h
    obtain ⟨g8, h8, h⟩ := h
    obtain ⟨a8, _, _, e8⟩ := invokeConstructorOrPanic_ok _ _ _ _ _ _ _ _ _ h8
    clear h1 h2 h3 h4 h5 h6 h7 h8
    split at h
    · simp [Res.fail] at h
    · rename_i alloc halloc
      have hres := Except.ok.inj h
      subst hres
      refine ⟨stakes, total, g8.Alloc, a1, hstakes, ?_, ?_, ?_⟩
      · subst e8 e7 e6 e5 e4 e3 e2 e1
        exact keys_after_simulations a1 a2 a3 a4 a5 a6 a7 a8
      · subst e8 e7 e6 e5 e4 e3 e2 e1
        exact get?_staking_after_simulations a1 a2 a3 a4 a5 a6 a7 a8
      · have hget : g8.Alloc.get? stakingAddress = some a1 := by
          subst e8 e7 e6 e5 e4 e3 e2 e1
          exact get?_staking_after_simulations a1 a2 a3 a4 a5 a6 a7 a8
        have hget2 : (g8.Alloc.set intermediarySystemAddress { Balance := some 0 }).get
            stakingAddress = a1 := by
          unfold GenesisAlloc.get
          rw [GenesisAlloc.get?_set_ne _ _ _ _ (by decide), hget]
          rfl
        rw [hget2] at halloc
        exact halloc

/-- The faucet loop, when it succeeds: entries at other addresses are kept,
the keys are the old keys and the faucet addresses, and every faucet address
holds a balance-only account with the balance parsed from its value. -/
theorem applyFaucet_ok (entries : List (Address × GoString)) :
    ∀ (alloc result : GenesisAlloc), applyFaucet entries alloc = .ok result →
      (∀ k, k ∉ entries.map Prod.fst → result.get? k = alloc.get? k)
      ∧ (∀ a, a ∈ result.keys ↔ a ∈ alloc.keys ∨ a ∈ entries.map Prod.fst)
      ∧ (alloc.keys.Nodup → result.keys.Nodup)
      ∧ ((entries.map Prod.fst).Nodup → ∀ key value, (key, value) ∈ entries →
          ∃ balance, SetString16 (value.drop 2) = some balance
            ∧ result.get? key = some { Balance := some balance }) := by
  induction entries with
  | nil =>
    intro alloc result h
    simp only [applyFaucet, Except.ok.injEq] at h
    subst h
    simp
  | cons p rest ih =>
    obtain ⟨key, value⟩ := p
    intro alloc result h
    rw [applyFaucet] at h
    split at h
    · exact absurd h (by simp)
    · split at h
      · exact absurd h (by simp)
      · rename_i balance hbal
        obtain ⟨ih1, ih2, ih3, ih4⟩ := ih _ _ h
        refine ⟨?_, ?_, ?_, ?_⟩
        · intro k hk
          simp only [List.map_cons, List.mem_cons, not_or] at hk
          rw [ih1 k hk.2, GenesisAlloc.get?_set_ne _ _ _ _ hk.1]
        · intro a
          rw [ih2 a, GenesisAlloc.mem_keys_set]
          simp only [List.map_cons, List.mem_cons]
          tauto
        · intro hnd
          exact ih3 (GenesisAlloc.nodup_keys_set _ _ _ hnd)
        · intro hnd k v hmem
          simp only [List.map_cons, List.nodup_cons] at hnd
          rcases List.mem_cons.mp hmem with heq | hmem
          · simp only [Prod.mk.injEq] at heq
            obtain ⟨hk, hv⟩ := heq
            subst hk hv
            exact ⟨balance, hbal, by rw [ih1 k hnd.1, GenesisAlloc.get?_set_self]⟩
          · exact ih4 hnd.2 k v hmem

theorem decodeNibble_sign (c : Byte) (h : c.val = 45 ∨ c.val = 43) : decodeNibble c = none := by
  unfold decodeNibble
  rcases h with h | h <;> simp [h]

/-- On a hex string the parse of the faucet loop gives the number the string
denotes. -/
theorem SetString16_of_hexNumber (value : GoString) (n balance : Int)
    (h : hexNumber value = some n) (hb : SetString16 (value.drop 2) = some balance) :
    balance = n := by
  unfold hexNumber at h
  split at h
  · rename_i hm
    cases hrest : value.drop 2 with
    | nil =>
      have : (value.drop 2).length = 0 := by rw [hrest]; rfl
      simp only [List.length_drop] at this
      omega
    | cons c t =>
      rw [hrest] at h hb
      cases hd : decodeNibbles (c :: t) 0 with
      | none => rw [hd] at h; simp at h
      | some m =>
        rw [hd] at h
        simp only [Option.some.injEq] at h
        have hc : ¬ (c.val = 45 ∨ c.val = 43) := by
          intro hs
          have := decodeNibble_sign c hs
          simp [decodeNibbles, this] at hd
        simp only [not_or] at hc
        unfold SetString16 at hb
        simp only [hc.1, hc.2, if_false, hd] at hb
        simp at hb
        rw [← hb, ← h]
  · cases h

theorem createGenesisConfig_ok (env : Env) (config : genesisConfig) (targetFile : GoString)
    (h : (createGenesisConfig env config targetFile).value = .ok ()) :
    ∃ genesis : Genesis,
      (assembleGenesis env config targetFile).value = .ok genesis
      ∧ Event.write (sinkOf targetFile) genesis
          ∈ (createGenesisConfig env config targetFile).events := by
  have h' := h
  unfold createGenesisConfig at h'
  rw [Res.bind_value_ok] at h'
  obtain ⟨genesis, hg, _⟩ := h'
  refine ⟨genesis, hg, ?_⟩
  unfold createGenesisConfig
  rw [Res.bind_events_of_ok _ _ genesis hg,
    Res.bind_events_of_ok _ _ () (by rfl)]
  simp [Res.emit]

/-! ## The claims on the simulation and on the assembly -/

/-- C9 (amended): for every successful simulation, the account that
`simulateSystemContract` records for the target has balance 0 whatever
funding balance was passed in, code equal to the code the creation returned,
and nonce 0. -/
theorem simulateSystemContract_account (env : Env) (genesis : Genesis)
    (systemContract : Address) (rawArtifact ctor : Bytes) (balance : Option Int)
    (result : Genesis)
    (h : (simulateSystemContract env genesis systemContract rawArtifact ctor balance).value
      = .ok result) :
    ∃ account : GenesisAccount,
      result.Alloc.get? systemContract = some account
      ∧ account.Balance = some 0
      ∧ some account.Code
          = codeOfCreation env genesis systemContract rawArtifact ctor balance
      ∧ account.Nonce = 0 := by
  obtain ⟨artifact, code, statedb, hart, hcode, hstate, hres⟩ :=
    simulateSystemContract_ok env genesis systemContract rawArtifact ctor balance result h
  subst hres
  refine ⟨_, GenesisAlloc.get?_set_self _ _ _, rfl, ?_, rfl⟩
  simp only [codeOfCreation, hart, hstate, hcode]

set_option maxRecDepth 100000 in
/-- The amended C9 on a simulation with funding balance 5. -/
theorem simulateSystemContract_account_witness :
    (simulateSystemContract sampleEnv (defaultGenesisConfig localNetConfig) stakingAddress
        (str "0x6001") [] (some 5)).value
      = .ok { defaultGenesisConfig localNetConfig with
          Alloc := ⟨[(stakingAddress,
            { Code := [0x60, 0x01], Storage := [(0, 1)], Balance := some 0, Nonce := 0 })]⟩ }
    ∧ ∃ account : GenesisAccount,
      ({ defaultGenesisConfig localNetConfig with
          Alloc := ⟨[(stakingAddress,
            { Code := [0x60, 0x01], Storage := [(0, 1)], Balance := some 0, Nonce := 0 })]⟩ }
        : Genesis).Alloc.get? stakingAddress = some account
      ∧ account.Balance = some 0
      ∧ some account.Code
          = codeOfCreation sampleEnv (defaultGenesisConfig localNetConfig) stakingAddress
              (str "0x6001") [] (some 5)
      ∧ account.Nonce = 0 :=
  ⟨by decide,
    simulateSystemContract_account sampleEnv (defaultGenesisConfig localNetConfig)
      stakingAddress (str "0x6001") [] (some 5) _ (by decide)⟩

set_option maxRecDepth 100000 in
/-- C9 as stated fails: a simulation that is passed the funding balance 5
succeeds and records an account with balance 0. -/
theorem simulateSystemContract_balance_counterexample :
    ((simulateSystemContract sampleEnv (defaultGenesisConfig localNetConfig) stakingAddress
        (str "0x6001") [] (some 5)).result?.map
          (fun g => (g.Alloc.get stakingAddress).Balance)) = some (some 0)
      ∧ (some 0 : Option Int) ≠ some 5 := by
  decide

set_option maxRecDepth 100000 in
/-- C10 as stated fails: with an engine whose creation writes slot 0 and
whose initializer call writes slot 1, the simulation succeeds, the write-set
after the initializer call has both slots, and the recorded storage has
slot 0 only. -/
theorem simulateSystemContract_storage_counterexample :
    ((simulateSystemContract sampleEnv (defaultGenesisConfig localNetConfig) stakingAddress
        (str "0x6001") [] none).result?.map
          (fun g => (g.Alloc.get stakingAddress).Storage)) = some [(0, 1)]
      ∧ writeSetAfterInitializer sampleEnv (defaultGenesisConfig localNetConfig) stakingAddress
          (str "0x6001") [] none = some [(0, 1), (1, 2)] := by
  decide

/-- C1 (amended): for every profile whose faucet table has no entry at the
Staking address and for which `createGenesisConfig` completes without error,
every validator has a declared initial stake and the balance of the Staking
account in the final allocation map, the one of the document handed to the
sink, is the sum of the declared stakes over the validator list. -/
theorem staking_balance_is_stake_total (env : Env) (config : genesisConfig)
    (targetFile : GoString)
    (h : (createGenesisConfig env config targetFile).value = .ok ())
    (hfaucet : stakingAddress ∉ config.Faucet.entries.map Prod.fst) :
    ∃ (genesis : Genesis) (account : GenesisAccount),
      (assembleGenesis env config targetFile).value = .ok genesis
      ∧ Event.write (sinkOf targetFile) genesis
          ∈ (createGenesisConfig env config targetFile).events
      ∧ (∀ v ∈ config.Validators, (declaredStake config v).isSome = true)
      ∧ genesis.Alloc.get? stakingAddress = some account
      ∧ account.Balance
          = some ((config.Validators.map (fun v => (declaredStake config v).getD 0)).sum) := by
  obtain ⟨genesis, hg, hw⟩ := createGenesisConfig_ok env config targetFile h
  obtain ⟨stakes, total, alloc8, staking, hstakes, _, _, hfa⟩ :=
    assembleGenesis_ok env config targetFile genesis hg
  obtain ⟨hdecl, htotal⟩ := collectInitialStakes_ok config config.Validators [] 0 stakes total hstakes
  obtain ⟨hkeep, _, _, _⟩ := applyFaucet_ok _ _ _ hfa
  refine ⟨genesis, { staking with Balance := some total }, hg, hw, hdecl, ?_, ?_⟩
  · rw [hkeep stakingAddress hfaucet, GenesisAlloc.get?_set_self]
  · simp [htotal]

set_option maxRecDepth 100000 in
/-- The amended C1 on the local profile. -/
theorem staking_balance_is_stake_total_witness :
    (createGenesisConfig sampleEnv localNetConfig (str "localnet.json")).value = .ok ()
      ∧ stakingAddress ∉ localNetConfig.Faucet.entries.map Prod.fst
      ∧ ∃ (genesis : Genesis) (account : GenesisAccount),
        (assembleGenesis sampleEnv localNetConfig (str "localnet.json")).value = .ok genesis
        ∧ Event.write (sinkOf (str "localnet.json")) genesis
            ∈ (createGenesisConfig sampleEnv localNetConfig (str "localnet.json")).events
        ∧ (∀ v ∈ localNetConfig.Validators, (declaredStake localNetConfig v).isSome = true)
        ∧ genesis.Alloc.get? stakingAddress = some account
        ∧ account.Balance = some ((localNetConfig.Validators.map
            (fun v => (declaredStake localNetConfig v).getD 0)).sum) :=
  ⟨by decide, by decide,
    staking_balance_is_stake_total sampleEnv localNetConfig (str "localnet.json")
      (by decide) (by decide)⟩

set_option maxRecDepth 100000 in
/-- C1 as stated fails: the local profile with one faucet entry `0x01` at the
Staking address has a stake entry for every validator and completes without
error, the declared stakes sum to `0x3635c9adc5dea00000`, and the final
Staking balance is 1. -/
theorem staking_balance_counterexample :
    (createGenesisConfig sampleEnv faucetAtStaking (str "out.json")).value = .ok ()
      ∧ (∀ v ∈ faucetAtStaking.Validators, (faucetAtStaking.InitialStakes.get? v).isSome = true)
      ∧ (faucetAtStaking.Validators.map (fun v => (declaredStake faucetAtStaking v).getD 0)).sum
          = 0x3635c9adc5dea00000
      ∧ (assembleGenesis sampleEnv faucetAtStaking (str "out.json")).result?.map
          (fun g => (g.Alloc.get stakingAddress).Balance) = some (some 1) := by
  decide

/-- The stakes loop stops with the decoding error of the first stake that
does not decode, when the validators before it have stakes that decode. -/
theorem collectInitialStakes_malformed (stakes : GoMap GoString) (pre : List Address) :
    ∀ (u : Address) (post : List Address) (raw : GoString) (he : HexError) (acc : List Int)
      (total : Int),
      stakes.get? u = some raw → DecodeBig raw = .error he →
      (∀ w ∈ pre, ∃ raw' n, stakes.get? w = some raw' ∧ DecodeBig raw' = .ok n) →
      collectInitialStakes stakes (pre ++ u :: post) acc total = .error (.hexutil he) := by
  induction pre with
  | nil =>
    intro u post raw he acc total hu hd _
    simp only [List.nil_append, collectInitialStakes, hu, hd]
  | cons w pre ih =>
    intro u post raw he acc total hu hd hpre
    obtain ⟨raw', n, hraw, hn⟩ := hpre w (List.mem_cons_self w pre)
    simp only [List.cons_append, collectInitialStakes, hraw, hn]
    exact ih u post raw he _ _ hu hd (fun x hx => hpre x (List.mem_cons_of_mem w hx))

/-- C2 (amended): for every profile whose validator list contains an address
without an entry in the initial-stakes table, `createGenesisConfig` returns
an error before any simulation is started and without writing any output (it
emits no event at all); the error names the first such validator provided
the stakes of the validators listed before it decode; and when instead some
validator before it has a stake that does not decode, the error is the
decoding error of the first such stake. -/
theorem createGenesisConfig_missing_stake (env : Env) (config : genesisConfig)
    (targetFile : GoString)
    (h : ∃ v ∈ config.Validators, config.InitialStakes.get? v = none) :
    (createGenesisConfig env config targetFile).events = []
      ∧ (∃ e, (createGenesisConfig env config targetFile).value = .error (.error e))
      ∧ (∀ (pre : List Address) (v : Address) (post : List Address),
          config.Validators = pre ++ v :: post → config.InitialStakes.get? v = none →
          (∀ u ∈ pre, ∃ raw n, config.InitialStakes.get? u = some raw ∧ DecodeBig raw = .ok n) →
          (createGenesisConfig env config targetFile).value
            = .error (.error (.initialStakeNotFound v)))
      ∧ ∀ (pre : List Address) (u : Address) (post : List Address) (raw : GoString)
          (he : HexError),
          config.Validators = pre ++ u :: post →
          (∀ w ∈ pre, ∃ raw' n, config.InitialStakes.get? w = some raw'
            ∧ DecodeBig raw' = .ok n) →
          config.InitialStakes.get? u = some raw → DecodeBig raw = .error he →
          (createGenesisConfig env config targetFile).value = .error (.error (.hexutil he)) := by
  obtain ⟨e, he⟩ := collectInitialStakes_fails config.InitialStakes config.Validators [] 0 h
  have hrun := createGenesisConfig_of_stakes_error env config targetFile e he
  refine ⟨by rw [hrun], ⟨e, by rw [hrun]⟩, ?_, ?_⟩
  · intro pre v post hvs hv hpre
    have hm := collectInitialStakes_missing config.InitialStakes pre v post [] 0 hv hpre
    rw [← hvs] at hm
    rw [createGenesisConfig_of_stakes_error env config targetFile _ hm]
  · intro pre u post raw herr hvs hpre hu hd
    have hm := collectInitialStakes_malformed config.InitialStakes pre u post raw herr [] 0 hu hd
      hpre
    rw [← hvs] at hm
    rw [createGenesisConfig_of_stakes_error env config targetFile _ hm]

set_option maxRecDepth 100000 in
/-- The amended C2 on two profiles with validators A and B, B without a stake
entry: with a stake of A that decodes the error names B, and with the stake
`zz` for A the error is the decoding error of that stake. -/
theorem createGenesisConfig_missing_stake_witness :
    (∃ v ∈ secondValidatorMissing.Validators, secondValidatorMissing.InitialStakes.get? v = none)
      ∧ (∃ v ∈ malformedThenMissing.Validators, malformedThenMissing.InitialStakes.get? v = none)
      ∧ (createGenesisConfig sampleEnv secondValidatorMissing (str "out.json")).events = []
      ∧ (createGenesisConfig sampleEnv secondValidatorMissing (str "out.json")).value
          = .error (.error (.initialStakeNotFound validatorB))
      ∧ (createGenesisConfig sampleEnv malformedThenMissing (str "out.json")).events = []
      ∧ (createGenesisConfig sampleEnv malformedThenMissing (str "out.json")).value
          = .error (.error (.hexutil .missingMarker)) :=
  ⟨⟨validatorB, by decide, by decide⟩, ⟨validatorB, by decide, by decide⟩,
    (createGenesisConfig_missing_stake sampleEnv secondValidatorMissing (str "out.json")
      ⟨validatorB, by decide, by decide⟩).1,
    (createGenesisConfig_missing_stake sampleEnv secondValidatorMissing (str "out.json")
      ⟨validatorB, by decide, by decide⟩).2.2.1 [validatorA] validatorB [] rfl (by decide)
      (fun u hu => by
        rw [List.mem_singleton.mp hu]
        exact ⟨str "0x3635c9adc5dea00000", 0x3635c9adc5dea00000, by decide, by decide⟩),
    (createGenesisConfig_missing_stake sampleEnv malformedThenMissing (str "out.json")
      ⟨validatorB, by decide, by decide⟩).1,
    (createGenesisConfig_missing_stake sampleEnv malformedThenMissing (str "out.json")
      ⟨validatorB, by decide, by decide⟩).2.2.2 [] validatorA [validatorB] (str "zz")
      .missingMarker rfl (fun w hw => absurd hw (List.not_mem_nil w)) (by decide)
      (by decide)⟩

set_option maxRecDepth 100000 in
/-- C2 as stated fails: with validators A, B, the stake `zz` for A and no
entry for B, the first validator without an entry is B, and the error
returned is the decoding error of the stake of A, which does not name B. -/
theorem createGenesisConfig_missing_stake_counterexample :
    malformedThenMissing.Validators = [validatorA, validatorB]
      ∧ malformedThenMissing.InitialStakes.get? validatorA = some (str "zz")
      ∧ malformedThenMissing.InitialStakes.get? validatorB = none
      ∧ (createGenesisConfig sampleEnv malformedThenMissing (str "out.json")).value
          = .error (.error (.hexutil .missingMarker))
      ∧ (createGenesisConfig sampleEnv malformedThenMissing (str "out.json")).value
          ≠ .error (.error (.initialStakeNotFound validatorB)) := by
  decide

/-- C7: for every profile for which `createGenesisConfig` completes without
error and every entry of the faucet table, whatever its address (a system
contract address and the intermediary address included), the final
allocation entry at that address is a balance-only account, with no code, no
storage and nonce 0, whose balance is the number parsed from the faucet
value, which for a hex string is the number the string denotes. -/
theorem faucet_entries_override (env : Env) (config : genesisConfig) (targetFile : GoString)
    (h : (createGenesisConfig env config targetFile).value = .ok ()) :
    ∃ genesis : Genesis,
      (assembleGenesis env config targetFile).value = .ok genesis
      ∧ Event.write (sinkOf targetFile) genesis
          ∈ (createGenesisConfig env config targetFile).events
      ∧ ∀ (key : Address) (value : GoString), (key, value) ∈ config.Faucet.entries →
          ∃ balance : Int,
            SetString16 (value.drop 2) = some balance
            ∧ (∀ n, hexNumber value = some n → balance = n)
            ∧ genesis.Alloc.get? key
                = some { Code := [], Storage := [], Balance := some balance, Nonce := 0 } := by
  obtain ⟨genesis, hg, hw⟩ := createGenesisConfig_ok env config targetFile h
  obtain ⟨stakes, total, alloc8, staking, _, _, _, hfa⟩ :=
    assembleGenesis_ok env config targetFile genesis hg
  obtain ⟨_, _, _, hset⟩ := applyFaucet_ok _ _ _ hfa
  refine ⟨genesis, hg, hw, ?_⟩
  intro key value hmem
  obtain ⟨balance, hbal, hget⟩ := hset config.Faucet.nodup key value hmem
  exact ⟨balance, hbal, fun n hn => SetString16_of_hexNumber value n balance hn hbal, hget⟩

set_option maxRecDepth 100000 in
/-- C7 on a profile whose faucet entry sits at the Staking address: the run
completes and the entry replaces the simulated Staking account. -/
theorem faucet_entries_override_witness :
    (createGenesisConfig sampleEnv faucetAtStaking (str "out.json")).value = .ok ()
      ∧ ∃ genesis : Genesis,
        (assembleGenesis sampleEnv faucetAtStaking (str "out.json")).value = .ok genesis
        ∧ Event.write (sinkOf (str "out.json")) genesis
            ∈ (createGenesisConfig sampleEnv faucetAtStaking (str "out.json")).events
        ∧ ∀ (key : Address) (value : GoString), (key, value) ∈ faucetAtStaking.Faucet.entries →
            ∃ balance : Int,
              SetString16 (value.drop 2) = some balance
              ∧ (∀ n, hexNumber value = some n → balance = n)
              ∧ genesis.Alloc.get? key
                  = some { Code := [], Storage := [], Balance := some balance, Nonce := 0 } :=
  ⟨by decide, faucet_entries_override sampleEnv faucetAtStaking (str "out.json") (by decide)⟩

theorem systemContractAddresses_nodup : systemContractAddresses.Nodup := by decide

/-- C8 (amended): for every profile for which `createGenesisConfig` completes
without error, the addresses of the final allocation map are, each once,
exactly the eight system-contract addresses, the intermediary address and
the faucet addresses; the intermediary entry has no code, and it has zero
balance unless the faucet table has an entry at the intermediary address;
with the faucet addresses of the built-in devnet profile the map has 11
entries. -/
theorem allocation_addresses (env : Env) (config : genesisConfig) (targetFile : GoString)
    (h : (createGenesisConfig env config targetFile).value = .ok ()) :
    ∃ genesis : Genesis,
      (assembleGenesis env config targetFile).value = .ok genesis
      ∧ Event.write (sinkOf targetFile) genesis
          ∈ (createGenesisConfig env config targetFile).events
      ∧ genesis.Alloc.keys.Nodup
      ∧ (∀ a : Address, a ∈ genesis.Alloc.keys ↔
          a ∈ systemContractAddresses ∨ a = intermediarySystemAddress
            ∨ a ∈ config.Faucet.entries.map Prod.fst)
      ∧ (∃ account : GenesisAccount,
          genesis.Alloc.get? intermediarySystemAddress = some account
          ∧ account.Code = []
          ∧ (intermediarySystemAddress ∉ config.Faucet.entries.map Prod.fst →
              account.Balance = some 0))
      ∧ (config.Faucet.entries.map Prod.fst = devNetConfig.Faucet.entries.map Prod.fst →
          genesis.Alloc.keys.length = 11) := by
  obtain ⟨genesis, hg, hw⟩ := createGenesisConfig_ok env config targetFile h
  obtain ⟨stakes, total, alloc8, staking, _, hkeys8, _, hfa⟩ :=
    assembleGenesis_ok env config targetFile genesis hg
  obtain ⟨hkeep, hmem, hnodup, hset⟩ := applyFaucet_ok _ _ _ hfa
  have hnd8 : alloc8.keys.Nodup := by rw [hkeys8]; exact systemContractAddresses_nodup
  have hnd : genesis.Alloc.keys.Nodup :=
    hnodup (GenesisAlloc.nodup_keys_set _ _ _ (GenesisAlloc.nodup_keys_set _ _ _ hnd8))
  have hstk : stakingAddress ∈ systemContractAddresses := by decide
  have hall : ∀ a : Address, a ∈ genesis.Alloc.keys ↔
      a ∈ systemContractAddresses ∨ a = intermediarySystemAddress
        ∨ a ∈ config.Faucet.entries.map Prod.fst := by
    intro a
    rw [hmem a, GenesisAlloc.mem_keys_set, GenesisAlloc.mem_keys_set, hkeys8]
    constructor
    · rintro (((h1 | h1) | h1) | h1)
      · exact Or.inl h1
      · exact Or.inr (Or.inl h1)
      · exact Or.inl (h1 ▸ hstk)
      · exact Or.inr (Or.inr h1)
    · rintro (h1 | h1 | h1)
      · exact Or.inl (Or.inl (Or.inl h1))
      · exact Or.inl (Or.inl (Or.inr h1))
      · exact Or.inr h1
  refine ⟨genesis, hg, hw, hnd, hall, ?_, ?_⟩
  · by_cases hin : intermediarySystemAddress ∈ config.Faucet.entries.map Prod.fst
    · obtain ⟨p, hp, hpk⟩ := List.mem_map.mp hin
      obtain ⟨key, value⟩ := p
      simp only at hpk
      subst hpk
      obtain ⟨balance, _, hget⟩ := hset config.Faucet.nodup _ value hp
      exact ⟨_, hget, rfl, fun hn => absurd hin hn⟩
    · refine ⟨{ Balance := some 0 }, ?_, rfl, fun _ => rfl⟩
      rw [hkeep _ hin, GenesisAlloc.get?_set_ne _ _ _ _ (by decide),
        GenesisAlloc.get?_set_self]
  · intro hdev
    have hperm : genesis.Alloc.keys.Perm
        (systemContractAddresses ++ [intermediarySystemAddress]
          ++ devNetConfig.Faucet.entries.map Prod.fst) := by
      refine (List.perm_ext_iff_of_nodup hnd (by decide)).mpr ?_
      intro a
      rw [hall a, hdev]
      simp only [List.mem_append, List.mem_singleton]
      tauto
    rw [hperm.length_eq]
    rfl

set_option maxRecDepth 100000 in
/-- The amended C8 on the built-in devnet profile. -/
theorem allocation_addresses_witness :
    (createGenesisConfig sampleEnv devNetConfig (str "devnet.json")).value = .ok ()
      ∧ ∃ genesis : Genesis,
        (assembleGenesis sampleEnv devNetConfig (str "devnet.json")).value = .ok genesis
        ∧ Event.write (sinkOf (str "devnet.json")) genesis
            ∈ (createGenesisConfig sampleEnv devNetConfig (str "devnet.json")).events
        ∧ genesis.Alloc.keys.Nodup
        ∧ (∀ a : Address, a ∈ genesis.Alloc.keys ↔
            a ∈ systemContractAddresses ∨ a = intermediarySystemAddress
              ∨ a ∈ devNetConfig.Faucet.entries.map Prod.fst)
        ∧ (∃ account : GenesisAccount,
            genesis.Alloc.get? intermediarySystemAddress = some account
            ∧ account.Code = []
            ∧ (intermediarySystemAddress ∉ devNetConfig.Faucet.entries.map Prod.fst →
                account.Balance = some 0))
        ∧ (devNetConfig.Faucet.entries.map Prod.fst = devNetConfig.Faucet.entries.map Prod.fst →
            genesis.Alloc.keys.length = 11) :=
  ⟨by decide, allocation_addresses sampleEnv devNetConfig (str "devnet.json") (by decide)⟩

set_option maxRecDepth 100000 in
/-- C8 as stated fails: the local profile with one faucet entry `0x01` at the
intermediary address completes without error, and the intermediary entry of
the final allocation map has balance 1, not zero. -/
theorem intermediary_balance_counterexample :
    (createGenesisConfig sampleEnv faucetAtIntermediary (str "out.json")).value = .ok ()
      ∧ (assembleGenesis sampleEnv faucetAtIntermediary (str "out.json")).result?.map
          (fun g => (g.Alloc.get intermediarySystemAddress).Balance) = some (some 1)
      ∧ (some 1 : Option Int) ≠ some 0 := by
  decide

/-! ## Isolation of a simulation -/

theorem Res.bind_def {α β : Type} (x : Res α) (f : α → Res β) : (x >>= f) = Res.bind x f := rfl

theorem Res.pure_def {α : Type} (a : α) : (pure a : Res α) = Res.pure a := rfl

/-- The allocation map a simulation is given has no influence on it: the
events and the failure are the same, and on success the recorded account is
the same and lands in the given map. -/
theorem simulateSystemContract_alloc (env : Env) (genesis : Genesis) (alloc : GenesisAlloc)
    (systemContract : Address) (rawArtifact ctor : Bytes) (balance : Option Int) :
    simulateSystemContract env { genesis with Alloc := alloc } systemContract rawArtifact ctor
        balance
      = ⟨(simulateSystemContract env genesis systemContract rawArtifact ctor balance).events,
          match (simulateSystemContract env genesis systemContract rawArtifact ctor
              balance).value with
          | .error e => .error e
          | .ok result =>
            .ok { result with
              Alloc := alloc.set systemContract (result.Alloc.get systemContract) }⟩ := by
  have hc : ∀ bc s, runCreation env { genesis with Alloc := alloc } systemContract bc balance s
      = runCreation env genesis systemContract bc balance s := fun _ _ => rfl
  have hi : ∀ inp s, runInitializer env { genesis with Alloc := alloc } systemContract inp s
      = runInitializer env genesis systemContract inp s := fun _ _ => rfl
  have hget : ∀ (al : GenesisAlloc) acct,
      (al.set systemContract acct).get systemContract = acct := by
    intro al acct
    unfold GenesisAlloc.get
    rw [GenesisAlloc.get?_set_self]
    rfl
  unfold simulateSystemContract
  simp only [hc, hi, Res.bind_def, Res.pure_def]
  cases hu : env.unmarshalArtifact rawArtifact with
  | error e => simp [Res.bind_def, Res.pure_def, Res.bind, Res.emit, Res.fail]
  | ok artifact =>
    cases hd : hexDecode artifact.Bytecode with
    | error e =>
      simp [Res.bind_def, Res.pure_def, Res.bind, Res.emit, Res.fail, MustDecode, hd]
    | ok code =>
      cases hs : env.newState with
      | error e =>
        simp [Res.bind_def, Res.pure_def, Res.bind, Res.emit, Res.fail, Res.pure, MustDecode, hd]
      | ok statedb =>
        cases hcr :
            (runCreation env genesis systemContract (code ++ ctor) balance statedb).err with
        | some e =>
          by_cases hl :
              (runCreation env genesis systemContract (code ++ ctor) balance
                statedb).ret.length < 64
          · simp [Res.bind_def, Res.pure_def, Res.bind, Res.emit, Res.fail, Res.pure, MustDecode,
              hd, hcr, printRevertReason, hl]
          · simp [Res.bind_def, Res.pure_def, Res.bind, Res.emit, Res.fail, Res.pure, MustDecode,
              hd, hcr, printRevertReason, hl]
        | none =>
          have hsel : hexDecode initializerSelector = .ok [0xe1, 0xc7, 0x39, 0x2a] := by decide
          cases hca : (runInitializer env genesis systemContract [0xe1, 0xc7, 0x39, 0x2a]
              (env.GetOrNewStateObject (runCreation env genesis systemContract (code ++ ctor)
                balance statedb).statedb systemContract).2).err with
          | some e =>
            by_cases hl : (runInitializer env genesis systemContract [0xe1, 0xc7, 0x39, 0x2a]
              (env.GetOrNewStateObject (runCreation env genesis systemContract (code ++ ctor)
                balance statedb).statedb systemContract).2).ret.length < 64
            · simp [Res.bind_def, Res.pure_def, Res.bind, Res.emit, Res.fail, Res.pure, MustDecode,
                hd, hcr, hsel, hca, printRevertReason, hl]
            · simp [Res.bind_def, Res.pure_def, Res.bind, Res.emit, Res.fail, Res.pure, MustDecode,
                hd, hcr, hsel, hca, printRevertReason, hl]
          | none =>
            simp [Res.bind_def, Res.pure_def, Res.bind, Res.emit, Res.fail, Res.pure, MustDecode,
              hd, hcr, hsel, hca, hget]
            refine ⟨rfl, ?_⟩
            change Except.ok _ = Except.ok _
            rw [hget]

/-- C13: the account state that `simulateSystemContract` computes for a
contract does not depend on the entries the allocation map already holds:
with any other map in place of the one of the genesis, the simulation emits
the same events, fails the same way, and on success records the same account
for the target; its creation runs on a new state database in which only the
funding balance of the target has been set; and the simulation changes no
allocation entry other than the target's own. -/
theorem simulation_isolated (env : Env) (genesis : Genesis) (alloc : GenesisAlloc)
    (systemContract : Address) (rawArtifact ctor : Bytes) (balance : Option Int) :
    (simulateSystemContract env { genesis with Alloc := alloc } systemContract rawArtifact ctor
        balance).events
      = (simulateSystemContract env genesis systemContract rawArtifact ctor balance).events
    ∧ (∀ e, (simulateSystemContract env genesis systemContract rawArtifact ctor balance).value
          = .error e →
        (simulateSystemContract env { genesis with Alloc := alloc } systemContract rawArtifact
          ctor balance).value = .error e)
    ∧ ∀ result,
        (simulateSystemContract env genesis systemContract rawArtifact ctor balance).value
          = .ok result →
        ∃ (other : Genesis) (account : GenesisAccount) (artifact : artifactData) (code : Bytes)
            (statedb : env.StateDB),
          (simulateSystemContract env { genesis with Alloc := alloc } systemContract
            rawArtifact ctor balance).value = .ok other
          ∧ result.Alloc.get? systemContract = some account
          ∧ other.Alloc.get? systemContract = some account
          ∧ (∀ k, k ≠ systemContract → result.Alloc.get? k = genesis.Alloc.get? k)
          ∧ (∀ k, k ≠ systemContract → other.Alloc.get? k = alloc.get? k)
          ∧ env.unmarshalArtifact rawArtifact = .ok artifact
          ∧ hexDecode artifact.Bytecode = .ok code
          ∧ env.newState = .ok statedb
          ∧ account.Code
              = (env.CreateWithAddress (newEVMBlockContext genesis)
                  { Origin := systemContract, GasPrice := 0 } genesis.Config
                  (env.SetBalance statedb systemContract balance) zeroAddress (code ++ ctor)
                  10000000 0 systemContract).ret
          ∧ account.Storage
              = (env.GetOrNewStateObject
                  (env.CreateWithAddress (newEVMBlockContext genesis)
                    { Origin := systemContract, GasPrice := 0 } genesis.Config
                    (env.SetBalance statedb systemContract balance) zeroAddress (code ++ ctor)
                    10000000 0 systemContract).statedb systemContract).1.dirtyStorage := by
  have hre := simulateSystemContract_alloc env genesis alloc systemContract rawArtifact ctor
    balance
  refine ⟨by rw [hre], ?_, ?_⟩
  · intro e he
    rw [hre]
    simp only [he]
  · intro result hres
    obtain ⟨artifact, code, statedb, hart, hcode, hstate, hr⟩ :=
      simulateSystemContract_ok env genesis systemContract rawArtifact ctor balance result hres
    refine ⟨{ result with Alloc := alloc.set systemContract (result.Alloc.get systemContract) },
      result.Alloc.get systemContract, artifact, code, statedb, ?_, ?_, ?_, ?_, ?_, hart, hcode,
      hstate, ?_, ?_⟩
    · rw [hre]
      simp only [hres]
    · subst hr
      simp only [GenesisAlloc.get, GenesisAlloc.get?_set_self, Option.getD_some]
    · exact GenesisAlloc.get?_set_self _ _ _
    · intro k hk
      subst hr
      exact GenesisAlloc.get?_set_ne _ _ _ _ hk
    · intro k hk
      exact GenesisAlloc.get?_set_ne _ _ _ _ hk
    · subst hr
      simp only [GenesisAlloc.get, GenesisAlloc.get?_set_self, Option.getD_some]
      rfl
    · subst hr
      simp only [GenesisAlloc.get, GenesisAlloc.get?_set_self, Option.getD_some]
      rfl

set_option maxRecDepth 100000 in
/-- C13 on a simulation of the ChainConfig contract, once on the empty map and
once on the map the Staking simulation left: the same account is recorded,
and the Staking entry is left as it was. -/
theorem simulation_isolated_witness :
    (simulateSystemContract sampleEnv
        { defaultGenesisConfig localNetConfig with
          Alloc := ⟨[(stakingAddress, { Code := [0x60, 0x01], Storage := [(0, 1)] })]⟩ }
        chainConfigAddress (str "0x6003") [] none).events
      = (simulateSystemContract sampleEnv (defaultGenesisConfig localNetConfig)
          chainConfigAddress (str "0x6003") [] none).events
    ∧ (simulateSystemContract sampleEnv
        { defaultGenesisConfig localNetConfig with
          Alloc := ⟨[(stakingAddress, { Code := [0x60, 0x01], Storage := [(0, 1)] })]⟩ }
        chainConfigAddress (str "0x6003") [] none).result?.map
          (fun g => (g.Alloc.get? chainConfigAddress, g.Alloc.get? stakingAddress))
      = some (some { Code := [0x60, 0x03], Storage := [(0, 1)], Balance := some 0 },
          some { Code := [0x60, 0x01], Storage := [(0, 1)] })
    ∧ (simulateSystemContract sampleEnv (defaultGenesisConfig localNetConfig)
        chainConfigAddress (str "0x6003") [] none).result?.map
          (fun g => g.Alloc.get? chainConfigAddress)
      = some (some { Code := [0x60, 0x03], Storage := [(0, 1)], Balance := some 0 }) :=
  ⟨(simulation_isolated sampleEnv (defaultGenesisConfig localNetConfig)
      ⟨[(stakingAddress, { Code := [0x60, 0x01], Storage := [(0, 1)] })]⟩
      chainConfigAddress (str "0x6003") [] none).1, by decide, by decide⟩

/-! ## The treasury arrays and the commission rate -/

theorem lookupKey_of_mem {β : Type} (l : List (Address × β)) (hnd : (l.map Prod.fst).Nodup)
    (k : Address) (v : β) (h : (k, v) ∈ l) : lookupKey k l = some v := by
  induction l with
  | nil => simp at h
  | cons p rest ih =>
    obtain ⟨k', v'⟩ := p
    simp only [List.map_cons, List.nodup_cons] at hnd
    rcases List.mem_cons.mp h with heq | hmem
    · simp only [Prod.mk.injEq] at heq
      obtain ⟨hk, hv⟩ := heq
      subst hk hv
      simp [lookupKey]
    · have hne : k' ≠ k := by
        intro hk
        subst hk
        exact hnd.1 (List.mem_map.mpr ⟨(k', v), hmem, rfl⟩)
      simp [lookupKey, hne, ih hnd.2 hmem]

theorem mem_of_lookupKey {β : Type} (l : List (Address × β)) (k : Address) (v : β)
    (h : lookupKey k l = some v) : (k, v) ∈ l := by
  induction l with
  | nil => simp [lookupKey] at h
  | cons p rest ih =>
    obtain ⟨k', v'⟩ := p
    by_cases hk : k' = k
    · subst hk
      simp [lookupKey] at h
      subst h
      exact List.mem_cons_self _ _
    · simp only [lookupKey, hk, if_false] at h
      exact List.mem_cons_of_mem _ (ih h)

/-- A successful assembly has run the SystemReward simulation with the
arrays built from the treasury table in the order of this run. -/
theorem assembleGenesis_systemReward_call (env : Env) (config : genesisConfig)
    (targetFile : GoString) (result : Genesis)
    (h : (assembleGenesis env config targetFile).value = .ok result) :
    ∃ before after : Genesis,
      (invokeConstructorOrPanic env before systemRewardAddress env.systemRewardRawArtifact
        [str "address[]", str "uint16[]"] (systemRewardArguments config.SystemTreasury.entries)
        (decide (targetFile = str "stdout")) none).value = .ok after := by
  unfold assembleGenesis at h
  simp only [] at h
  split at h
  · simp [Res.fail] at h
  · rw [Res.bind_value_ok] at h
    obtain ⟨g1, _, h⟩ := h
    rw [Res.bind_value_ok] at h
    obtain ⟨g2, _, h⟩ := h
    rw [Res.bind_value_ok] at h
    obtain ⟨g3, _, h⟩ := h
    rw [Res.bind_value_ok] at h
    obtain ⟨g4, _, h⟩ := h
    rw [Res.bind_value_ok] at h
    obtain ⟨g5, h5, _⟩ := h
    exact ⟨g4, g5, h5⟩

/-- A successful assembly has run the Staking simulation first, on the
initial genesis, with the validators, their decoded stakes and the commission
rate reduced to 16 bits, funded with the total of the stakes. -/
theorem assembleGenesis_staking_call (env : Env) (config : genesisConfig)
    (targetFile : GoString) (result : Genesis)
    (h : (assembleGenesis env config targetFile).value = .ok result) :
    ∃ (stakes : List Int) (total : Int) (after : Genesis),
      collectInitialStakes config.InitialStakes config.Validators [] 0 = .ok (stakes, total)
      ∧ (invokeConstructorOrPanic env (initialGenesis config) stakingAddress
          env.stakingRawArtifact [str "address[]", str "uint256[]", str "uint16"]
          (stakingArguments config stakes) (decide (targetFile = str "stdout"))
          (some total)).value = .ok after := by
  unfold assembleGenesis at h
  simp only [] at h
  split at h
  · simp [Res.fail] at h
  · rename_i stakes total hstakes
    rw [Res.bind_value_ok] at h
    obtain ⟨g1, h1, _⟩ := h
    exact ⟨stakes, total, g1, hstakes, h1⟩

/-- C14: for every treasury table and every order in which a run visits it,
the two arrays passed to the SystemReward constructor have the length of the
table, hold every treasury address exactly once, and are aligned: the share
at index `i` is the share the table assigns to the address at index `i`; the
shares go into the arguments as they are, no check of their sum stands
between the table and the simulation. -/
theorem treasury_arrays_aligned (config : genesisConfig) (order : List (Address × Nat))
    (horder : order.Perm config.SystemTreasury.entries) :
    (order.map Prod.fst).length = config.SystemTreasury.entries.length
      ∧ (order.map Prod.snd).length = config.SystemTreasury.entries.length
      ∧ (order.map Prod.fst).Nodup
      ∧ (∀ a : Address, a ∈ order.map Prod.fst ↔ (config.SystemTreasury.get? a).isSome = true)
      ∧ (∀ (i : Nat) (a : Address), (order.map Prod.fst)[i]? = some a →
          (order.map Prod.snd)[i]? = config.SystemTreasury.get? a)
      ∧ systemRewardArguments order
          = [.addressSlice (order.map Prod.fst), .uintSlice 16 (order.map Prod.snd)]
      ∧ (order = config.SystemTreasury.entries →
          ∀ (env : Env) (targetFile : GoString) (result : Genesis),
            (assembleGenesis env config targetFile).value = .ok result →
            ∃ before after : Genesis,
              (invokeConstructorOrPanic env before systemRewardAddress
                env.systemRewardRawArtifact [str "address[]", str "uint16[]"]
                (systemRewardArguments order) (decide (targetFile = str "stdout"))
                none).value = .ok after) := by
  have hnd : (order.map Prod.fst).Nodup :=
    (List.Perm.nodup_iff (horder.map Prod.fst)).mpr config.SystemTreasury.nodup
  refine ⟨by simp [horder.length_eq], by simp [horder.length_eq], hnd, ?_, ?_, rfl, ?_⟩
  · intro a
    constructor
    · intro ha
      obtain ⟨p, hp, hpa⟩ := List.mem_map.mp ha
      obtain ⟨k, v⟩ := p
      simp only at hpa
      subst hpa
      have := lookupKey_of_mem _ config.SystemTreasury.nodup k v (horder.mem_iff.mp hp)
      simp [GoMap.get?, this]
    · intro ha
      cases hg : config.SystemTreasury.get? a with
      | none => simp [hg] at ha
      | some v =>
        have hm := mem_of_lookupKey _ a v hg
        exact List.mem_map.mpr ⟨(a, v), horder.mem_iff.mpr hm, rfl⟩
  · intro i a hi
    simp only [List.getElem?_map] at hi ⊢
    cases ho : order[i]? with
    | none => simp [ho] at hi
    | some p =>
      obtain ⟨k, v⟩ := p
      simp only [ho, Option.map_some', Option.some.injEq] at hi ⊢
      subst hi
      have hmem : (k, v) ∈ order := List.getElem?_mem ho
      exact (lookupKey_of_mem _ config.SystemTreasury.nodup k v (horder.mem_iff.mp hmem)).symm
  · intro ho env targetFile result h
    subst ho
    exact assembleGenesis_systemReward_call env config targetFile result h

set_option maxRecDepth 100000 in
/-- C14 on a table of two entries whose shares add up to 13000, for the order
that visits the second entry first. -/
theorem treasury_arrays_aligned_witness :
    treasuryRunBA.SystemTreasury.entries.Perm treasuryRunAB.SystemTreasury.entries
      ∧ (createGenesisConfig sampleEnv treasuryRunAB (str "out.json")).value = .ok ()
      ∧ (treasuryRunBA.SystemTreasury.entries.map Prod.fst).Nodup
      ∧ ∀ (i : Nat) (a : Address),
          (treasuryRunBA.SystemTreasury.entries.map Prod.fst)[i]? = some a →
          (treasuryRunBA.SystemTreasury.entries.map Prod.snd)[i]?
            = treasuryRunAB.SystemTreasury.get? a :=
  ⟨by decide, by decide,
    (treasury_arrays_aligned treasuryRunAB treasuryRunBA.SystemTreasury.entries
      (by decide)).2.2.1,
    (treasury_arrays_aligned treasuryRunAB treasuryRunBA.SystemTreasury.entries
      (by decide)).2.2.2.2.1⟩

theorem stakingArguments_pack (env : Env) (config : genesisConfig) (stakes : List Int) :
    packConstructorArguments env [str "address[]", str "uint256[]", str "uint16"]
        (stakingArguments config stakes)
      = .ok (word 96 ++ word (96 + (word config.Validators.length
              ++ (config.Validators.map packAddress).flatten).length)
          ++ word (config.CommissionRate % 65536).toNat
          ++ (word config.Validators.length ++ (config.Validators.map packAddress).flatten)
          ++ (word stakes.length ++ (stakes.map U256Bytes).flatten)) := by
  have hargs : newArguments [str "address[]", str "uint256[]", str "uint16"]
      = some [AbiType.slice AbiElem.address, AbiType.slice (AbiElem.uint 256),
          AbiType.elem (AbiElem.uint 16)] := by decide
  have hv : interpretsValues [AbiType.slice AbiElem.address, AbiType.slice (AbiElem.uint 256),
      AbiType.elem (AbiElem.uint 16)] (stakingArguments config stakes) = true := rfl
  unfold packConstructorArguments
  rw [hargs]
  simp only [hv, if_true]
  simp [stakingArguments, Pack, packLoop, AbiType.pack, isDynamicType, getTypeSize, machineUint]

/-- C15: the commission rate passed to the Staking constructor is the
CommissionRate of the profile reduced modulo 2^16: it is the CommissionRate
itself when that lies between 0 and 65535, and a different, wrapped value for
every other CommissionRate; no range check stands in between, the arguments
are packed without an error for every CommissionRate. -/
theorem commission_rate_wraps (config : genesisConfig) :
    (∀ stakes : List Int,
        stakingArguments config stakes
          = [.addressSlice config.Validators, .bigIntSlice stakes,
              .uint 16 (config.CommissionRate % 65536).toNat])
      ∧ ((config.CommissionRate % 65536).toNat < 65536)
      ∧ (((config.CommissionRate % 65536).toNat : Int) = config.CommissionRate % 2 ^ 16)
      ∧ (0 ≤ config.CommissionRate ∧ config.CommissionRate ≤ 65535 →
          ((config.CommissionRate % 65536).toNat : Int) = config.CommissionRate)
      ∧ (config.CommissionRate < 0 ∨ 65535 < config.CommissionRate →
          ((config.CommissionRate % 65536).toNat : Int) ≠ config.CommissionRate)
      ∧ (∀ (env : Env) (stakes : List Int), ∃ args : Bytes,
          packConstructorArguments env [str "address[]", str "uint256[]", str "uint16"]
            (stakingArguments config stakes) = .ok args)
      ∧ (∀ (env : Env) (targetFile : GoString) (result : Genesis),
          (assembleGenesis env config targetFile).value = .ok result →
          ∃ (stakes : List Int) (total : Int) (after : Genesis),
            collectInitialStakes config.InitialStakes config.Validators [] 0
              = .ok (stakes, total)
            ∧ (invokeConstructorOrPanic env (initialGenesis config) stakingAddress
                env.stakingRawArtifact [str "address[]", str "uint256[]", str "uint16"]
                (stakingArguments config stakes) (decide (targetFile = str "stdout"))
                (some total)).value = .ok after) := by
  have hnn : 0 ≤ config.CommissionRate % 65536 := Int.emod_nonneg _ (by decide)
  have hlt : config.CommissionRate % 65536 < 65536 := Int.emod_lt_of_pos _ (by decide)
  have hcast : ((config.CommissionRate % 65536).toNat : Int) = config.CommissionRate % 65536 :=
    Int.toNat_of_nonneg hnn
  refine ⟨fun _ => rfl, ?_, ?_, ?_, ?_, ?_, ?_⟩
  · omega
  · rw [hcast]; norm_num
  · intro h
    rw [hcast]
    exact Int.emod_eq_of_lt h.1 (by omega)
  · intro h
    rw [hcast]
    omega
  · intro env stakes
    exact ⟨_, stakingArguments_pack env config stakes⟩
  · intro env targetFile result h
    exact assembleGenesis_staking_call env config targetFile result h

set_option maxRecDepth 100000 in
/-- C15 on the local profile with the commission rate -1: the run completes
and the rate passed is 65535. -/
theorem commission_rate_wraps_witness :
    (createGenesisConfig sampleEnv negativeCommissionRate (str "out.json")).value = .ok ()
      ∧ (negativeCommissionRate.CommissionRate % 65536).toNat = 65535
      ∧ (negativeCommissionRate.CommissionRate < 0
          ∨ 65535 < negativeCommissionRate.CommissionRate)
      ∧ ((negativeCommissionRate.CommissionRate % 65536).toNat : Int)
          ≠ negativeCommissionRate.CommissionRate :=
  ⟨by decide, by decide, by decide,
    (commission_rate_wraps negativeCommissionRate).2.2.2.2.1 (by decide)⟩

/-! ## The faucet values -/

theorem decodeNibble_isSome (c : Byte) : (decodeNibble c).isSome = isHexDigit c := by
  unfold decodeNibble isHexDigit
  split
  · rename_i h; simp [h.1, h.2]
  · rename_i h1
    split
    · rename_i h; simp [h.1, h.2]
    · rename_i h2
      split
      · rename_i h; simp [h.1, h.2]
      · rename_i h3
        simp only [Option.isSome_none]
        simp only [not_and, not_le] at h1 h2 h3
        symm
        simp only [Bool.or_eq_false_iff, Bool.and_eq_false_iff, decide_eq_false_iff_not, not_le]
        refine ⟨⟨?_, ?_⟩, ?_⟩
        · by_cases h : 48 ≤ c.val
          · exact Or.inr (h1 h)
          · exact Or.inl (by omega)
        · by_cases h : 65 ≤ c.val
          · exact Or.inr (h2 h)
          · exact Or.inl (by omega)
        · by_cases h : 97 ≤ c.val
          · exact Or.inr (h3 h)
          · exact Or.inl (by omega)

theorem decodeNibbles_isSome (l : Bytes) :
    ∀ acc : Nat, (decodeNibbles l acc).isSome = l.all isHexDigit := by
  induction l with
  | nil => intro acc; rfl
  | cons c t ih =>
    intro acc
    have hc := decodeNibble_isSome c
    cases hd : decodeNibble c with
    | none =>
      rw [hd] at hc
      simp only [decodeNibbles, hd, List.all_cons, ← hc]
      rfl
    | some d =>
      rw [hd] at hc
      simp only [decodeNibbles, hd, List.all_cons, ← hc, ih]
      rfl

/-- `SetString(s, 16)` succeeds exactly on the valid base-16 integer texts. -/
theorem SetString16_isSome (s : GoString) : (SetString16 s).isSome = validBase16Text s := by
  cases s with
  | nil => rfl
  | cons c t =>
    by_cases h1 : c.val = 45
    · cases t with
      | nil => simp [SetString16, validBase16Text, h1]
      | cons d ds =>
        have := decodeNibbles_isSome (d :: ds) 0
        cases hd : decodeNibbles (d :: ds) 0 with
        | none => rw [hd] at this; simp [SetString16, validBase16Text, h1, hd, ← this]
        | some n => rw [hd] at this; simp [SetString16, validBase16Text, h1, hd, ← this]
    · by_cases h2 : c.val = 43
      · cases t with
        | nil => simp [SetString16, validBase16Text, h1, h2]
        | cons d ds =>
          have := decodeNibbles_isSome (d :: ds) 0
          cases hd : decodeNibbles (d :: ds) 0 with
          | none => rw [hd] at this; simp [SetString16, validBase16Text, h1, h2, hd, ← this]
          | some n => rw [hd] at this; simp [SetString16, validBase16Text, h1, h2, hd, ← this]
      · have := decodeNibbles_isSome (c :: t) 0
        cases hd : decodeNibbles (c :: t) 0 with
        | none => rw [hd] at this; simp [SetString16, validBase16Text, h1, h2, hd, ← this]
        | some n => rw [hd] at this; simp [SetString16, validBase16Text, h1, h2, hd, ← this]

/-- The faucet loop returns the parse error only for a value whose remainder
does not parse. -/
theorem applyFaucet_parse_error (entries : List (Address × GoString)) :
    ∀ (alloc : GenesisAlloc) (value : GoString),
      applyFaucet entries alloc = .error (.error (.failedToParseNumber value)) →
      SetString16 (value.drop 2) = none := by
  induction entries with
  | nil => intro alloc value h; simp [applyFaucet] at h
  | cons p rest ih =>
    obtain ⟨k, v⟩ := p
    intro alloc value h
    rw [applyFaucet] at h
    split at h
    · simp at h
    · split at h
      · rename_i hnone
        simp only [Except.error.injEq, Failure.error.injEq,
          ErrorValue.failedToParseNumber.injEq] at h
        subst h
        exact hnone
      · exact ih _ _ h

/-- C16: the faucet step drops the first two bytes of a value, whatever they
are, and parses the rest in base 16. For a value of at least 2 bytes the
step returns the parse error for that value exactly when the rest is not a
valid base-16 integer text, and otherwise goes on with the balance parsed
from the rest; two values with the same rest give the same balance and the
same outcome; a value of fewer than 2 bytes makes the slice expression
panic instead. -/
theorem faucet_value_parsing (key : Address) (value : GoString)
    (rest : List (Address × GoString)) (alloc : GenesisAlloc) :
    (2 ≤ value.length →
      (applyFaucet ((key, value) :: rest) alloc
          = .error (.error (.failedToParseNumber value))
        ↔ validBase16Text (value.drop 2) = false))
    ∧ (2 ≤ value.length → ∀ balance : Int, SetString16 (value.drop 2) = some balance →
        applyFaucet ((key, value) :: rest) alloc
          = applyFaucet rest (alloc.set key { Balance := some balance }))
    ∧ (∀ other : GoString, 2 ≤ value.length → 2 ≤ other.length →
        other.drop 2 = value.drop 2 →
        SetString16 (other.drop 2) = SetString16 (value.drop 2)
          ∧ (validBase16Text (value.drop 2) = true →
              applyFaucet ((key, other) :: rest) alloc
                = applyFaucet ((key, value) :: rest) alloc))
    ∧ (value.length < 2 →
        applyFaucet ((key, value) :: rest) alloc
          = .error (.panic (.sliceBounds 2 value.length))) := by
  have hstep : ∀ v : GoString, 2 ≤ v.length → ∀ balance : Int,
      SetString16 (v.drop 2) = some balance →
      applyFaucet ((key, v) :: rest) alloc
        = applyFaucet rest (alloc.set key { Balance := some balance }) := by
    intro v hv balance hb
    rw [applyFaucet, if_neg (by omega)]
    simp only [hb]
  refine ⟨?_, hstep value, ?_, ?_⟩
  · intro hlen
    have hvalid := SetString16_isSome (value.drop 2)
    constructor
    · intro h
      cases hs : SetString16 (value.drop 2) with
      | none => rw [hs] at hvalid; simpa using hvalid.symm
      | some balance =>
        rw [hstep value hlen balance hs] at h
        have := applyFaucet_parse_error rest _ value h
        rw [hs] at this
        cases this
    · intro h
      rw [h] at hvalid
      have hs : SetString16 (value.drop 2) = none := by
        cases hs : SetString16 (value.drop 2) with
        | none => rfl
        | some b => rw [hs] at hvalid; simp at hvalid
      rw [applyFaucet, if_neg (by omega)]
      simp only [hs]
  · intro other hlen holen hsame
    refine ⟨by rw [hsame], ?_⟩
    intro hv
    have hvalid := SetString16_isSome (value.drop 2)
    rw [hv] at hvalid
    cases hs : SetString16 (value.drop 2) with
    | none => rw [hs] at hvalid; simp at hvalid
    | some balance =>
      rw [hstep value hlen balance hs, hstep other holen balance (by rw [hsame, hs])]
  · intro hlen
    rw [applyFaucet, if_pos hlen]

set_option maxRecDepth 100000 in
/-- C16 on concrete values: `zz1f` gives the balance 31 in a run that
completes, and the one-byte value `0` makes the run panic at the slice
expression. -/
theorem faucet_value_parsing_witness :
    (assembleGenesis sampleEnv faucetUnmarked (str "out.json")).result?.map
        (fun g => g.Alloc.get? validatorB) = some (some { Balance := some 31 })
      ∧ (createGenesisConfig sampleEnv faucetShortValue (str "out.json")).value
          = .error (.panic (.sliceBounds 2 1))
      ∧ (str "0").length < 2
      ∧ applyFaucet [(validatorB, str "0")] ⟨[]⟩
          = .error (.panic (.sliceBounds 2 (str "0").length))
      ∧ (2 ≤ (str "zz1f").length →
          (applyFaucet [(validatorB, str "zz1f")] ⟨[]⟩
              = .error (.error (.failedToParseNumber (str "zz1f")))
            ↔ validBase16Text ((str "zz1f").drop 2) = false)) :=
  ⟨by decide, by decide, by decide,
    (faucet_value_parsing validatorB (str "0") [] ⟨[]⟩).2.2.2 (by decide),
    (faucet_value_parsing validatorB (str "zz1f") [] ⟨[]⟩).1⟩

/-! ## Runs that do not agree, and diagnostics that abort -/

/-- What the simulation does when the creation fails: with at least 64
returned bytes it prints the printable ones after the first 64, then a line
end, and returns the error of the engine; with fewer it panics at the slice
expression, before anything is printed. -/
theorem simulateSystemContract_creation_failure (env : Env) (genesis : Genesis)
    (systemContract : Address) (rawArtifact ctor : Bytes) (balance : Option Int)
    (artifact : artifactData) (code : Bytes) (statedb : env.StateDB) (e : GoString)
    (hart : env.unmarshalArtifact rawArtifact = .ok artifact)
    (hcode : hexDecode artifact.Bytecode = .ok code)
    (hstate : env.newState = .ok statedb)
    (herr : (runCreation env genesis systemContract (code ++ ctor) balance statedb).err
      = some e) :
    simulateSystemContract env genesis systemContract rawArtifact ctor balance
      = if (runCreation env genesis systemContract (code ++ ctor) balance statedb).ret.length
            < 64 then
          ⟨[Event.simulation systemContract],
            .error (.panic (.sliceBounds 64
              (runCreation env genesis systemContract (code ++ ctor) balance
                statedb).ret.length))⟩
        else
          ⟨[Event.simulation systemContract]
              ++ ((((runCreation env genesis systemContract (code ++ ctor) balance
                  statedb).ret.drop 64).filter
                    (fun c => decide (32 ≤ c.val ∧ c.val ≤ 127))).map
                      (fun c => Event.print [c]) ++ [Event.print [10]]),
            .error (.error (.engine e))⟩ := by
  unfold simulateSystemContract
  by_cases hl :
      (runCreation env genesis systemContract (code ++ ctor) balance statedb).ret.length < 64
  · simp [Res.bind_def, Res.pure_def, Res.bind, Res.emit, Res.fail, Res.pure, MustDecode,
      hart, hcode, hstate, herr, printRevertReason, hl]
  · simp [Res.bind_def, Res.pure_def, Res.bind, Res.emit, Res.fail, Res.pure, MustDecode,
      hart, hcode, hstate, herr, printRevertReason, hl]

set_option maxRecDepth 100000 in
/-- C11, at the failing input: one profile with a treasury table of two
entries, in two runs that visit the table in the two possible orders. Both
runs complete; the SystemReward constructor receives the addresses and the
shares in the order of the visit, so the two runs pass different arguments;
with an engine whose deployed code depends on the constructor payload the
two documents differ at the SystemReward entry, and the payloads printed
for the constructor calls differ with any engine. -/
theorem treasury_order_changes_document :
    treasuryRunAB.SystemTreasury.entries.Perm treasuryRunBA.SystemTreasury.entries
      ∧ systemRewardArguments treasuryRunAB.SystemTreasury.entries
          = [.addressSlice [validatorA, validatorB], .uintSlice 16 [6000, 7000]]
      ∧ systemRewardArguments treasuryRunBA.SystemTreasury.entries
          = [.addressSlice [validatorB, validatorA], .uintSlice 16 [7000, 6000]]
      ∧ (createGenesisConfig echoEnv treasuryRunAB (str "out.json")).value = .ok ()
      ∧ (createGenesisConfig echoEnv treasuryRunBA (str "out.json")).value = .ok ()
      ∧ (assembleGenesis echoEnv treasuryRunAB (str "out.json")).result?.map
            (fun g => g.Alloc.get? systemRewardAddress)
          ≠ (assembleGenesis echoEnv treasuryRunBA (str "out.json")).result?.map
            (fun g => g.Alloc.get? systemRewardAddress)
      ∧ (createGenesisConfig sampleEnv treasuryRunAB (str "out.json")).events
          ≠ (createGenesisConfig sampleEnv treasuryRunBA (str "out.json")).events := by
  decide

set_option maxRecDepth 100000 in
/-- C12, at the failing inputs: a creation that fails and returns no bytes,
and an initializer call that fails and returns 4 bytes. In both cases
`simulateSystemContract` panics at the slice expression over the returned
bytes: nothing is printed and the error of the engine is not returned. -/
theorem short_revert_data_panics :
    (simulateSystemContract failingCreationEnv (defaultGenesisConfig localNetConfig)
        stakingAddress (str "0x6001") [] none).value = .error (.panic (.sliceBounds 64 0))
      ∧ (simulateSystemContract failingCreationEnv (defaultGenesisConfig localNetConfig)
        stakingAddress (str "0x6001") [] none).events = [.simulation stakingAddress]
      ∧ (simulateSystemContract failingCreationEnv (defaultGenesisConfig localNetConfig)
        stakingAddress (str "0x6001") [] none).value
          ≠ .error (.error (.engine (str "out of gas")))
      ∧ (simulateSystemContract failingInitializerEnv (defaultGenesisConfig localNetConfig)
        stakingAddress (str "0x6001") [] none).value = .error (.panic (.sliceBounds 64 4))
      ∧ (simulateSystemContract failingInitializerEnv (defaultGenesisConfig localNetConfig)
        stakingAddress (str "0x6001") [] none).events = [.simulation stakingAddress]
      ∧ (simulateSystemContract failingInitializerEnv (defaultGenesisConfig localNetConfig)
        stakingAddress (str "0x6001") [] none).value
          ≠ .error (.error (.engine (str "execution reverted"))) := by
  decide

/-! ## The initializer call as a check -/

/-- What the simulation returns once the creation has succeeded: the outcome
of the initializer call decides between the genesis with the account recorded
before the call, and a failure. -/
theorem simulateSystemContract_after_creation (env : Env) (genesis : Genesis)
    (systemContract : Address) (rawArtifact ctor : Bytes) (balance : Option Int)
    (artifact : artifactData) (code : Bytes) (statedb : env.StateDB)
    (hart : env.unmarshalArtifact rawArtifact = .ok artifact)
    (hcode : hexDecode artifact.Bytecode = .ok code)
    (hstate : env.newState = .ok statedb)
    (hcreated : (runCreation env genesis systemContract (code ++ ctor) balance statedb).err
      = none) :
    (simulateSystemContract env genesis systemContract rawArtifact ctor balance).value
      = match (runInitializer env genesis systemContract [0xe1, 0xc7, 0x39, 0x2a]
          (env.GetOrNewStateObject
            (runCreation env genesis systemContract (code ++ ctor) balance statedb).statedb
            systemContract).2).err with
        | none =>
          .ok { genesis with
            Alloc := genesis.Alloc.set systemContract
              { Code := (runCreation env genesis systemContract (code ++ ctor) balance
                  statedb).ret
                Storage := (env.GetOrNewStateObject
                  (runCreation env genesis systemContract (code ++ ctor) balance
                    statedb).statedb systemContract).1.dirtyStorage
                Balance := some 0
                Nonce := 0 } }
        | some e =>
          if (runInitializer env genesis systemContract [0xe1, 0xc7, 0x39, 0x2a]
              (env.GetOrNewStateObject
                (runCreation env genesis systemContract (code ++ ctor) balance statedb).statedb
                systemContract).2).ret.length < 64 then
            .error (.panic (.sliceBounds 64
              (runInitializer env genesis systemContract [0xe1, 0xc7, 0x39, 0x2a]
                (env.GetOrNewStateObject
                  (runCreation env genesis systemContract (code ++ ctor) balance
                    statedb).statedb systemContract).2).ret.length))
          else .error (.error (.engine e)) := by
  have hsel : hexDecode initializerSelector = .ok [0xe1, 0xc7, 0x39, 0x2a] := by decide
  unfold simulateSystemContract
  cases hca : (runInitializer env genesis systemContract [0xe1, 0xc7, 0x39, 0x2a]
      (env.GetOrNewStateObject
        (runCreation env genesis systemContract (code ++ ctor) balance statedb).statedb
        systemContract).2).err with
  | none =>
    simp [Res.bind_def, Res.pure_def, Res.bind, Res.emit, Res.fail, Res.pure, MustDecode,
      hart, hcode, hstate, hcreated, hsel, hca]
    rfl
  | some e =>
    by_cases hl : (runInitializer env genesis systemContract [0xe1, 0xc7, 0x39, 0x2a]
        (env.GetOrNewStateObject
          (runCreation env genesis systemContract (code ++ ctor) balance statedb).statedb
          systemContract).2).ret.length < 64
    · simp [Res.bind_def, Res.pure_def, Res.bind, Res.emit, Res.fail, Res.pure, MustDecode,
        hart, hcode, hstate, hcreated, hsel, hca, printRevertReason, hl]
    · simp [Res.bind_def, Res.pure_def, Res.bind, Res.emit, Res.fail, Res.pure, MustDecode,
        hart, hcode, hstate, hcreated, hsel, hca, printRevertReason, hl]

/-- C10 (amended): for every successful simulation, the storage recorded for
the contract in the allocation map is the pending write-set of the account
as it stands right after the creation, before the initializer is called;
what the initializer writes is not part of it. The initializer call only
checks that the initializer does not fail: in the successful simulation it
returned no error, and with any other behaviour of that call in its place
the simulation gives the very same result when the call returns no error and
fails when the call returns an error. -/
theorem simulateSystemContract_storage (env : Env) (genesis : Genesis)
    (systemContract : Address) (rawArtifact ctor : Bytes) (balance : Option Int)
    (result : Genesis)
    (h : (simulateSystemContract env genesis systemContract rawArtifact ctor balance).value
      = .ok result) :
    ∃ (account : GenesisAccount) (artifact : artifactData) (code : Bytes)
        (statedb : env.StateDB),
      result.Alloc.get? systemContract = some account
      ∧ some account.Storage
          = writeSetAfterCreation env genesis systemContract rawArtifact ctor balance
      ∧ env.unmarshalArtifact rawArtifact = .ok artifact
      ∧ hexDecode artifact.Bytecode = .ok code
      ∧ env.newState = .ok statedb
      ∧ (runInitializer env genesis systemContract [0xe1, 0xc7, 0x39, 0x2a]
          (env.GetOrNewStateObject
            (runCreation env genesis systemContract (code ++ ctor) balance statedb).statedb
            systemContract).2).err = none
      ∧ (∀ call,
          (runInitializer (env.withCall call) genesis systemContract [0xe1, 0xc7, 0x39, 0x2a]
            (env.GetOrNewStateObject
              (runCreation env genesis systemContract (code ++ ctor) balance statedb).statedb
              systemContract).2).err = none →
          (simulateSystemContract (env.withCall call) genesis systemContract rawArtifact ctor
            balance).value = .ok result)
      ∧ (∀ call,
          (runInitializer (env.withCall call) genesis systemContract [0xe1, 0xc7, 0x39, 0x2a]
            (env.GetOrNewStateObject
              (runCreation env genesis systemContract (code ++ ctor) balance statedb).statedb
              systemContract).2).err ≠ none →
          ∃ failure, (simulateSystemContract (env.withCall call) genesis systemContract
            rawArtifact ctor balance).value = .error failure) := by
  obtain ⟨artifact, code, statedb, hart, hcode, hstate, hres⟩ :=
    simulateSystemContract_ok env genesis systemContract rawArtifact ctor balance result h
  have hcreated : (runCreation env genesis systemContract (code ++ ctor) balance statedb).err
      = none := by
    cases herr : (runCreation env genesis systemContract (code ++ ctor) balance statedb).err with
    | none => rfl
    | some e =>
      have hf := simulateSystemContract_creation_failure env genesis systemContract rawArtifact
        ctor balance artifact code statedb e hart hcode hstate herr
      rw [hf] at h
      split at h <;> simp at h
  have hafter := simulateSystemContract_after_creation env genesis systemContract rawArtifact
    ctor balance artifact code statedb hart hcode hstate hcreated
  have hown : (runInitializer env genesis systemContract [0xe1, 0xc7, 0x39, 0x2a]
      (env.GetOrNewStateObject
        (runCreation env genesis systemContract (code ++ ctor) balance statedb).statedb
        systemContract).2).err = none := by
    cases hc : (runInitializer env genesis systemContract [0xe1, 0xc7, 0x39, 0x2a]
      (env.GetOrNewStateObject
        (runCreation env genesis systemContract (code ++ ctor) balance statedb).statedb
        systemContract).2).err with
    | none => rfl
    | some e =>
      rw [h, hc] at hafter
      simp only at hafter
      split at hafter <;> simp at hafter
  have hother : ∀ call,
      (simulateSystemContract (env.withCall call) genesis systemContract rawArtifact ctor
        balance).value
      = match (runInitializer (env.withCall call) genesis systemContract
          [0xe1, 0xc7, 0x39, 0x2a]
          (env.GetOrNewStateObject
            (runCreation env genesis systemContract (code ++ ctor) balance statedb).statedb
            systemContract).2).err with
        | none => .ok result
        | some e =>
          if (runInitializer (env.withCall call) genesis systemContract
              [0xe1, 0xc7, 0x39, 0x2a]
              (env.GetOrNewStateObject
                (runCreation env genesis systemContract (code ++ ctor) balance statedb).statedb
                systemContract).2).ret.length < 64 then
            .error (.panic (.sliceBounds 64
              (runInitializer (env.withCall call) genesis systemContract
                [0xe1, 0xc7, 0x39, 0x2a]
                (env.GetOrNewStateObject
                  (runCreation env genesis systemContract (code ++ ctor) balance
                    statedb).statedb systemContract).2).ret.length))
          else .error (.error (.engine e)) := by
    intro call
    have := simulateSystemContract_after_creation (env.withCall call) genesis systemContract
      rawArtifact ctor balance artifact code statedb hart hcode hstate hcreated
    rw [this, hres]
    rfl
  refine ⟨{ Code := (runCreation env genesis systemContract (code ++ ctor) balance statedb).ret
            Storage := (env.GetOrNewStateObject
              (runCreation env genesis systemContract (code ++ ctor) balance statedb).statedb
              systemContract).1.dirtyStorage
            Balance := some 0
            Nonce := 0 }, artifact, code, statedb, ?_, ?_, hart, hcode, hstate, hown, ?_, ?_⟩
  · rw [hres]
    exact GenesisAlloc.get?_set_self _ _ _
  · simp only [writeSetAfterCreation, hart, hstate, hcode]
  · intro call hc
    rw [hother call, hc]
  · intro call hc
    rw [hother call]
    cases he : (runInitializer (env.withCall call) genesis systemContract
        [0xe1, 0xc7, 0x39, 0x2a]
        (env.GetOrNewStateObject
          (runCreation env genesis systemContract (code ++ ctor) balance statedb).statedb
          systemContract).2).err with
    | none => exact absurd he hc
    | some e =>
      simp only
      split
      · exact ⟨_, rfl⟩
      · exact ⟨_, rfl⟩

set_option maxRecDepth 100000 in
/-- The amended C10 on a simulation whose initializer writes slot 1, and on
the same simulation with an initializer that writes slot 9 instead: both
record the storage the creation left, slot 0 alone. -/
theorem simulateSystemContract_storage_witness :
    (simulateSystemContract sampleEnv (defaultGenesisConfig localNetConfig) stakingAddress
        (str "0x6001") [] none).value
      = .ok { defaultGenesisConfig localNetConfig with
          Alloc := ⟨[(stakingAddress,
            { Code := [0x60, 0x01], Storage := [(0, 1)], Balance := some 0, Nonce := 0 })]⟩ }
    ∧ (simulateSystemContract (sampleEnv.withCall otherCall)
        (defaultGenesisConfig localNetConfig) stakingAddress (str "0x6001") [] none).value
      = .ok { defaultGenesisConfig localNetConfig with
          Alloc := ⟨[(stakingAddress,
            { Code := [0x60, 0x01], Storage := [(0, 1)], Balance := some 0, Nonce := 0 })]⟩ }
    ∧ ∃ account : GenesisAccount,
      ({ defaultGenesisConfig localNetConfig with
          Alloc := ⟨[(stakingAddress,
            { Code := [0x60, 0x01], Storage := [(0, 1)], Balance := some 0, Nonce := 0 })]⟩ }
        : Genesis).Alloc.get? stakingAddress = some account
      ∧ some account.Storage
          = writeSetAfterCreation sampleEnv (defaultGenesisConfig localNetConfig) stakingAddress
              (str "0x6001") [] none := by
  obtain ⟨account, artifact, code, statedb, h1, h2, _, _, _, _, hsame, _⟩ :=
    simulateSystemContract_storage sampleEnv (defaultGenesisConfig localNetConfig)
      stakingAddress (str "0x6001") [] none
      { defaultGenesisConfig localNetConfig with
          Alloc := ⟨[(stakingAddress,
            { Code := [0x60, 0x01], Storage := [(0, 1)], Balance := some 0, Nonce := 0 })]⟩ }
      (by decide)
  exact ⟨by decide, hsame otherCall rfl, account, h1, h2⟩

end CreateGenesis
